import Mathlib

/-!
# fnkube: the execution-lifecycle controller

A shallow embedding of `pkg/fnkube/fnkube.go` and `main.go`.

The session struct `s1` is threaded explicitly through every method.  The
cluster (the `kubernetes.Clientset`), the random-suffix generator, the
credential discovery and the race of the `select` statement are external to
the two source files; they are gathered in `Env`, a record of deterministic
transition functions over an arbitrary world state `σ`.  Every call the
program issues to a collaborator is appended, with its reply, to a trace kept
next to the world state, so that "which calls are issued, and in which order"
is a statement about a list.

Go's `error` is `Option String` (`none` is `nil`, `some m` an error whose
`Error()` text is `m`); `fmt.Errorf`/`fmt.Sprintf` with `%s` verbs is string
concatenation.
-/

namespace Fnkube

/-- Go's `error` interface value: `none` is `nil`. -/
abbrev GoError := Option String

/-- `AuthInfo` of fnkube.go. -/
structure AuthInfo where
  MasterURL : String
  Username : String
  Password : String
  Token : String
  Insecure : Bool
deriving DecidableEq, Repr

/-- `Options` of fnkube.go. -/
structure Options where
  Auth : AuthInfo
  ConfigFile : String
  Namespace : String
  Image : String
  Command : List String
  Timeout : Int
  Cleanup : Bool
deriving DecidableEq, Repr

/-- The session struct `s1` of fnkube.go.  Its `client` field is the handle to
the collaborators of `Env` and carries no data of its own. -/
structure s1 where
  options : Options
  jobName : String
  createdNamespace : Bool
  stdout : String
  stderr : String
deriving DecidableEq, Repr

/-- A `v1.Pod`, of which the program only reads `ObjectMeta.Name`. -/
structure Pod where
  name : String
deriving DecidableEq, Repr

/-- What `GetLogs(...).Stream()` followed by `buf.ReadFrom` can yield in
`stdOut`: `Stream` fails, the read fails, or the whole log is buffered. -/
inductive LogResult where
  | streamErr (e : String)
  | readErr (e : String)
  | content (c : String)
deriving DecidableEq, Repr

/-- Which case of the `select` in `watch` is taken: a receive on `stop`, or
the `time.After` timer. -/
inductive WatchOutcome where
  | completed
  | timedOut
deriving DecidableEq, Repr

/-- The calls the program issues to its collaborators. -/
inductive Call where
  | getNamespace (name : String)
  | createNamespace (name : String)
  | createJob (ns jobName containerName image : String) (command : List String)
  | runController (ns : String)
  | select (timerNanos : Int)
  | sendStop
  | glogError (line : String)
  | listPods (ns selector : String)
  | getLogs (ns pod : String)
  | deleteJob (ns name : String)
  | deletePod (ns name : String)
  | deleteNamespace (name : String)
deriving DecidableEq, Repr

/-- The reply to a call. -/
inductive Reply where
  | done
  | failed (e : String)
  | podList (items : List Pod)
  | logText (c : String)
  | woke (o : WatchOutcome)
deriving DecidableEq, Repr

/-- One issued call with its reply. -/
structure Event where
  call : Call
  reply : Reply
deriving DecidableEq, Repr

/-- The reply of a call that only returns an `error`. -/
def Reply.ofError : GoError → Reply
  | none => Reply.done
  | some e => Reply.failed e

/-- The collaborators of the two source files, as deterministic transitions of
a world state `σ`.  `RandomString` is `pkg/rand.RandomString`, which is not
among the source files; `await ns d` decides the `select` of `watch` for an
informer on namespace `ns` and a timer of `d` nanoseconds; `glogHeader` is
the header glog puts before the text of an error line (severity, date, time,
thread, `file:line] `). -/
structure Env (σ : Type) where
  RandomString : Nat → σ → String × σ
  defaultConfigFile : σ → String × σ
  BuildConfigFromFlags : String → String → σ → GoError × σ
  NewForConfig : Bool → σ → GoError × σ
  getNamespace : String → σ → GoError × σ
  createNamespace : String → σ → GoError × σ
  deleteNamespace : String → σ → GoError × σ
  createJob : String → String → String → String → List String → σ → GoError × σ
  deleteJob : String → String → σ → GoError × σ
  listPods : String → String → σ → Except String (List Pod) × σ
  deletePod : String → String → σ → GoError × σ
  getLogs : String → String → σ → LogResult × σ
  await : String → Int → σ → WatchOutcome × σ
  glogHeader : σ → String × σ

/-- The world state together with the trace of the calls issued so far. -/
structure St (σ : Type) where
  world : σ
  trace : List Event

/-- Append one call and its reply to the trace and move to the new world. -/
def St.record {σ : Type} (w : St σ) (c : Call) (r : Reply) (world : σ) : St σ :=
  { world := world, trace := w.trace ++ [{ call := c, reply := r }] }

/-- The constant `fnkubePrefix`. -/
def fnkubePrefix : String := "fnkube"

/-- `math.MaxInt32`. -/
def MaxInt32 : Int := 2147483647

/-- `math.MaxInt64`, the largest `time.Duration`. -/
def MaxInt64 : Int := 9223372036854775807

/-- `time.Second`, in nanoseconds. -/
def Second : Int := 1000000000

/-- Two's-complement wrap of an integer to `int64`. -/
def wrapInt64 (x : Int) : Int :=
  (x + 9223372036854775808) % 18446744073709551616 - 9223372036854775808

/-- The expression `time.Duration(s.options.Timeout) * time.Second` of
`watch`: an `int64` product. -/
def timerDuration (timeout : Int) : Int :=
  wrapInt64 (timeout * Second)

/-- The label selector `"job-name=" + s.jobName`. -/
def jobSelector (jobName : String) : String :=
  "job-name=" ++ jobName

variable {σ : Type}

/-- The method `validateConfig`. -/
def validateConfig (env : Env σ) (s : s1) (w : St σ) : GoError × s1 × St σ :=
  if s.options.ConfigFile.length = 0 ∧ s.options.Auth.MasterURL.length = 0 then
    match env.defaultConfigFile w.world with
    | (file, world) =>
      let s := { s with options := { s.options with ConfigFile := file } }
      let w := { w with world := world }
      if s.options.ConfigFile.length = 0 then
        (some "ConfigFile or MasterURL must be provided", s, w)
      else if s.options.Timeout = 0 then
        (none, { s with options := { s.options with Timeout := MaxInt32 } }, w)
      else
        (none, s, w)
  else if s.options.Timeout = 0 then
    (none, { s with options := { s.options with Timeout := MaxInt32 } }, w)
  else
    (none, s, w)

/-- The method `createClient`. -/
def createClient (env : Env σ) (s : s1) (w : St σ) : GoError × s1 × St σ :=
  match env.BuildConfigFromFlags s.options.Auth.MasterURL s.options.ConfigFile w.world with
  | (some e, world) => (some e, s, { w with world := world })
  | (none, world) =>
    match env.NewForConfig s.options.Auth.Insecure world with
    | (some e, world) => (some ("Error creating the client: " ++ e), s, { w with world := world })
    | (none, world) => (none, s, { w with world := world })

/-- The first `if`/`else` of `validateNamespace`: resolve the name and set the
ownership flag. -/
def resolveNamespace (env : Env σ) (s : s1) (w : St σ) : s1 × St σ :=
  if s.options.Namespace.length = 0 then
    match env.RandomString 5 w.world with
    | (suffix, world) =>
      ({ s with
          options := { s.options with Namespace := fnkubePrefix ++ "-ns-" ++ suffix },
          createdNamespace := true },
       { w with world := world })
  else
    match env.getNamespace s.options.Namespace w.world with
    | (some e, world) =>
      ({ s with createdNamespace := true },
       w.record (Call.getNamespace s.options.Namespace) (Reply.failed e) world)
    | (none, world) =>
      (s, w.record (Call.getNamespace s.options.Namespace) Reply.done world)

/-- The method `validateNamespace`. -/
def validateNamespace (env : Env σ) (s : s1) (w : St σ) : GoError × s1 × St σ :=
  match resolveNamespace env s w with
  | (s, w) =>
    if s.createdNamespace then
      match env.createNamespace s.options.Namespace w.world with
      | (some e, world) =>
        (some ("Error creating namespace " ++ s.options.Namespace ++ ": " ++ e), s,
         w.record (Call.createNamespace s.options.Namespace) (Reply.failed e) world)
      | (none, world) =>
        (none, s, w.record (Call.createNamespace s.options.Namespace) Reply.done world)
    else
      (none, s, w)

/-- The method `createJob`. -/
def createJob (env : Env σ) (s : s1) (w : St σ) : GoError × s1 × St σ :=
  match env.RandomString 5 w.world with
  | (suffix, world) =>
    let s := { s with jobName := fnkubePrefix ++ "-job-" ++ suffix }
    let container := fnkubePrefix ++ "-container-" ++ suffix
    match env.createJob s.options.Namespace s.jobName container s.options.Image
        s.options.Command world with
    | (err, world) =>
      (err, s,
       w.record
         (Call.createJob s.options.Namespace s.jobName container s.options.Image
           s.options.Command)
         (Reply.ofError err) world)

/-- The function `jobCompleted`, on the `Status.Succeeded` count of a job: the
test of the update handler of `watch`, whose first success is the signal that
`Env.await` reports as `WatchOutcome.completed`. -/
def jobCompleted (succeeded : Int) : Bool :=
  decide (succeeded > 0)

/-- The method `stdOut`. -/
def stdOut (env : Env σ) (pod : Pod) (s : s1) (w : St σ) : GoError × s1 × St σ :=
  match env.getLogs s.options.Namespace pod.name w.world with
  | (LogResult.streamErr e, world) =>
    (some e, s, w.record (Call.getLogs s.options.Namespace pod.name) (Reply.failed e) world)
  | (LogResult.readErr e, world) =>
    (some e, s, w.record (Call.getLogs s.options.Namespace pod.name) (Reply.failed e) world)
  | (LogResult.content c, world) =>
    (none, { s with stdout := c },
     w.record (Call.getLogs s.options.Namespace pod.name) (Reply.logText c) world)

/-- The `for _, pod := range pods.Items` loop of `output`. -/
def outputLoop (env : Env σ) : List Pod → s1 → St σ → GoError × s1 × St σ
  | [], s, w => (none, s, w)
  | pod :: rest, s, w =>
    match stdOut env pod s w with
    | (some e, s, w) => (some ("Error getting log for pod " ++ pod.name ++ ": " ++ e), s, w)
    | (none, s, w) => outputLoop env rest s w

/-- The method `output`. -/
def output (env : Env σ) (s : s1) (w : St σ) : GoError × s1 × St σ :=
  match env.listPods s.options.Namespace (jobSelector s.jobName) w.world with
  | (Except.error e, world) =>
    (some e, s,
     w.record (Call.listPods s.options.Namespace (jobSelector s.jobName)) (Reply.failed e) world)
  | (Except.ok pods, world) =>
    outputLoop env pods s
      (w.record (Call.listPods s.options.Namespace (jobSelector s.jobName))
        (Reply.podList pods) world)

/-- The `for _, pod := range pods.Items` loop of `deleteStuff`. -/
def deletePods (env : Env σ) (ns : String) : List Pod → St σ → GoError × St σ
  | [], w => (none, w)
  | pod :: rest, w =>
    match env.deletePod ns pod.name w.world with
    | (some e, world) => (some e, w.record (Call.deletePod ns pod.name) (Reply.failed e) world)
    | (none, world) => deletePods env ns rest (w.record (Call.deletePod ns pod.name) Reply.done world)

/-- The method `deleteStuff`. -/
def deleteStuff (env : Env σ) (s : s1) (w : St σ) : GoError × s1 × St σ :=
  if s.options.Cleanup = false then
    (none, s, w)
  else
    match env.deleteJob s.options.Namespace s.jobName w.world with
    | (some e, world) =>
      (some e, s, w.record (Call.deleteJob s.options.Namespace s.jobName) (Reply.failed e) world)
    | (none, world) =>
      let w := w.record (Call.deleteJob s.options.Namespace s.jobName) Reply.done world
      match env.listPods s.options.Namespace (jobSelector s.jobName) w.world with
      | (Except.error e, world) =>
        (some e, s,
         w.record (Call.listPods s.options.Namespace (jobSelector s.jobName))
           (Reply.failed e) world)
      | (Except.ok pods, world) =>
        let w := w.record (Call.listPods s.options.Namespace (jobSelector s.jobName))
          (Reply.podList pods) world
        match deletePods env s.options.Namespace pods w with
        | (some e, w) => (some e, s, w)
        | (none, w) =>
          if s.createdNamespace then
            match env.deleteNamespace s.options.Namespace w.world with
            | (some e, world) =>
              (some e, s,
               w.record (Call.deleteNamespace s.options.Namespace) (Reply.failed e) world)
            | (none, world) =>
              (none, s, w.record (Call.deleteNamespace s.options.Namespace) Reply.done world)
          else
            (none, s, w)

/-- The body of `watch` up to the end of its `select` statement.  The
informer goroutine is started, then the `select` is decided by `Env.await` for
the timer `timerDuration s.options.Timeout`.  On the `stop` case `output` is
called and the error it returns is dropped; on the timer case the stop signal
is sent (taken by the controller, whose stop channel it is) and the timeout is
logged with `glog.Errorf`, which writes the line to the standard error. -/
def watchSelect (env : Env σ) (s : s1) (w : St σ) : s1 × St σ :=
  let w := w.record (Call.runController s.options.Namespace) Reply.done w.world
  match env.await s.options.Namespace (timerDuration s.options.Timeout) w.world with
  | (WatchOutcome.completed, world) =>
    let w := w.record (Call.select (timerDuration s.options.Timeout))
      (Reply.woke WatchOutcome.completed) world
    match output env s w with
    | (_, s, w) => (s, w)
  | (WatchOutcome.timedOut, world) =>
    let w := w.record (Call.select (timerDuration s.options.Timeout))
      (Reply.woke WatchOutcome.timedOut) world
    let w := w.record Call.sendStop Reply.done w.world
    match env.glogHeader w.world with
    | (header, world) =>
      (s, w.record
        (Call.glogError (header ++ "Timeout while waiting for the Job to be completed\n"))
        Reply.done world)

/-- The method `watch`: the `select` statement, then `return s.deleteStuff()`. -/
def watch (env : Env σ) (s : s1) (w : St σ) : GoError × s1 × St σ :=
  match watchSelect env s w with
  | (s, w) => deleteStuff env s w

/-- The method `run`. -/
def run (env : Env σ) (s : s1) (w : St σ) : GoError × s1 × St σ :=
  match validateConfig env s w with
  | (some e, s, w) => (some e, s, w)
  | (none, s, w) =>
    match createClient env s w with
    | (some e, s, w) => (some e, s, w)
    | (none, s, w) =>
      match validateNamespace env s w with
      | (some e, s, w) => (some e, s, w)
      | (none, s, w) =>
        match createJob env s w with
        | (some e, s, w) => (some e, s, w)
        | (none, s, w) => watch env s w

/-- What `Run` returns, with the final world and trace. -/
structure RunResult (σ : Type) where
  stdout : String
  stderr : String
  err : GoError
  st : St σ

/-- The session `&s1{options: options}` that `Run` starts from. -/
def newSession (options : Options) : s1 :=
  { options := options, jobName := "", createdNamespace := false, stdout := "", stderr := "" }

/-- The function `Run`. -/
def Run (env : Env σ) (options : Options) (w : St σ) : RunResult σ :=
  match run env (newSession options) w with
  | (err, s, w) => { stdout := s.stdout, stderr := s.stderr, err := err, st := w }

/-- The values of the command-line flags after `flag.Parse()`, and the
trailing arguments `flag.Args()`. -/
structure Flags where
  ns : String
  image : String
  timeout : Int
  cleanup : Bool
  insecure : Bool
  args : List String
deriving DecidableEq, Repr

/-- The lines `glog.Errorf` wrote to the standard error, in order. -/
def glogLines : List Event → String
  | [] => ""
  | ev :: rest =>
    match ev.call with
    | Call.glogError line => line ++ glogLines rest
    | _ => glogLines rest

/-- What the process leaves behind: its exit code and what was written to the
standard output and to the standard error. -/
structure Exit (σ : Type) where
  code : Nat
  out : String
  errOut : String
  st : St σ

/-- The function `main` of main.go, after `flag.Parse()`, with the default
flags of glog (only its error lines reach the standard error).  `usage` is the
text `flag.Usage()` prints.  The standard error holds the error lines glog
wrote during `Run`, then what `main` prints there. -/
def main (env : Env σ) (usage : String) (f : Flags) (w : St σ) : Exit σ :=
  if f.image.length = 0 then
    { code := 1, out := "", errOut := "Missing image. Specify one with -image\n\n" ++ usage,
      st := w }
  else if f.args.length = 0 then
    { code := 1, out := "", errOut := "Missing the command to run\n\n" ++ usage, st := w }
  else
    let options : Options :=
      { Namespace := f.ns, Image := f.image, Command := f.args, Timeout := f.timeout,
        Cleanup := f.cleanup, ConfigFile := "",
        Auth := { MasterURL := "", Username := "", Password := "", Token := "",
                  Insecure := f.insecure } }
    match Run env options w with
    | r =>
      match r.err with
      | some e =>
        { code := 1, out := e ++ "\n",
          errOut := glogLines (r.st.trace.drop w.trace.length), st := r.st }
      | none =>
        { code := 0, out := r.stdout,
          errOut := glogLines (r.st.trace.drop w.trace.length) ++ r.stderr, st := r.st }

/-! ## Vocabulary of the statements -/

/-- The state a run starts from: a world and an empty trace. -/
def St.start (world : σ) : St σ :=
  { world := world, trace := [] }

/-- The calls issued so far, without their replies. -/
def St.calls (w : St σ) : List Call :=
  w.trace.map Event.call

/-- The session and state with which `run` enters `validateNamespace`, if
`validateConfig` and `createClient` return `nil`. -/
def reachNamespace (env : Env σ) (options : Options) (w : St σ) : Option (s1 × St σ) :=
  match validateConfig env (newSession options) w with
  | (some _, _, _) => none
  | (none, s, w) =>
    match createClient env s w with
    | (some _, _, _) => none
    | (none, s, w) => some (s, w)

/-- The session and state with which `run` enters `watch`, if the four stages
before it all return `nil`. -/
def reachWatch (env : Env σ) (options : Options) (w : St σ) : Option (s1 × St σ) :=
  match validateConfig env (newSession options) w with
  | (some _, _, _) => none
  | (none, s, w) =>
    match createClient env s w with
    | (some _, _, _) => none
    | (none, s, w) =>
      match validateNamespace env s w with
      | (some _, _, _) => none
      | (none, s, w) =>
        match createJob env s w with
        | (some _, _, _) => none
        | (none, s, w) => some (s, w)

/-- The log contents of the pods of a list, read in list order from a world;
`none` as soon as one retrieval fails. -/
def podLogs (env : Env σ) (ns : String) : List Pod → σ → Option (List String)
  | [], _ => some []
  | pod :: rest, world =>
    match env.getLogs ns pod.name world with
    | (LogResult.content c, world) => (podLogs env ns rest world).map (fun cs => c :: cs)
    | (_, _) => none

/-- A delete call of any kind. -/
def Call.isDelete : Call → Bool
  | Call.deleteJob _ _ => true
  | Call.deletePod _ _ => true
  | Call.deleteNamespace _ => true
  | _ => false

/-- A call that creates or deletes a namespace. -/
def Call.isNamespaceWrite : Call → Bool
  | Call.createNamespace _ => true
  | Call.deleteNamespace _ => true
  | _ => false

/-- A job submission. -/
def Call.isCreateJob : Call → Bool
  | Call.createJob _ _ _ _ _ => true
  | _ => false

/-- A log retrieval. -/
def Call.isGetLogs : Call → Bool
  | Call.getLogs _ _ => true
  | _ => false

/-- A call issued by `watch` before the cleanup: starting the informer, the
`select`, the stop signal, the logged timeout, the pod listing and the log
retrievals. -/
def Call.isWatchStep : Call → Bool
  | Call.runController _ => true
  | Call.select _ => true
  | Call.sendStop => true
  | Call.glogError _ => true
  | Call.listPods _ _ => true
  | Call.getLogs _ _ => true
  | _ => false

/-- The pods returned by the pod listing of a sequence of events, the empty
list when no listing of it succeeded. -/
def listedPods : List Event → List Pod
  | [] => []
  | ev :: rest =>
    match ev.reply with
    | Reply.podList items => items
    | _ => listedPods rest

/-- The calls of a cleanup in their fixed order: the job, the pod listing, the
pods in list order, and the namespace when it is owned. -/
def cleanupPlan (ns jobName : String) (pods : List Pod) (owned : Bool) : List Call :=
  Call.deleteJob ns jobName :: Call.listPods ns (jobSelector jobName) ::
    (pods.map (fun pod => Call.deletePod ns pod.name) ++
      if owned then [Call.deleteNamespace ns] else [])

/-! ## Concrete clusters -/

/-- A cluster that answers every call in the same way whatever happened
before: the replies are the fields. -/
structure Script where
  outcome : WatchOutcome
  pods : List Pod
  logs : String → LogResult
  lookup : GoError
  createNs : GoError
  deleteJob : GoError
  deletePod : String → GoError
  deleteNs : GoError

/-- The collaborators playing a script; both random suffixes are `abcde`. -/
def Script.env (sc : Script) : Env Unit where
  RandomString := fun _ u => ("abcde", u)
  defaultConfigFile := fun u => ("/home/user/.kube/config", u)
  BuildConfigFromFlags := fun _ _ u => (none, u)
  NewForConfig := fun _ u => (none, u)
  getNamespace := fun _ u => (sc.lookup, u)
  createNamespace := fun _ u => (sc.createNs, u)
  deleteNamespace := fun _ u => (sc.deleteNs, u)
  createJob := fun _ _ _ _ _ u => (none, u)
  deleteJob := fun _ _ u => (sc.deleteJob, u)
  listPods := fun _ _ u => (Except.ok sc.pods, u)
  deletePod := fun _ name u => (sc.deletePod name, u)
  getLogs := fun _ name u => (sc.logs name, u)
  await := fun _ _ u => (sc.outcome, u)
  glogHeader := fun u => ("E1104 11:29:00.000000       1 fnkube.go:210] ", u)

/-- The script in which every call succeeds, the job completes, and its two
pods `pod-a` and `pod-b` have the logs `first` and `hi`. -/
def happy : Script where
  outcome := WatchOutcome.completed
  pods := [{ name := "pod-a" }, { name := "pod-b" }]
  logs := fun name => LogResult.content (if name = "pod-a" then "first\n" else "hi\n")
  lookup := none
  createNs := none
  deleteJob := none
  deletePod := fun _ => none
  deleteNs := none

/-- As `happy`, but the deletion of the job fails. -/
def jobDeleteFails : Script :=
  { happy with deleteJob := some "the server rejected the request" }

/-- The options of `fnkube -namespace myproject -cleanup=false -image alpine
-- echo hi`, with the default timeout. -/
def debugOptions : Options where
  Namespace := "myproject"
  Image := "alpine"
  Command := ["echo", "hi"]
  Timeout := 120
  Cleanup := false
  ConfigFile := ""
  Auth := { MasterURL := "", Username := "", Password := "", Token := "", Insecure := false }

/-- The options of `fnkube -namespace myproject -image alpine -- echo hi`. -/
def projectOptions : Options where
  Namespace := "myproject"
  Image := "alpine"
  Command := ["echo", "hi"]
  Timeout := 120
  Cleanup := true
  ConfigFile := ""
  Auth := { MasterURL := "", Username := "", Password := "", Token := "", Insecure := false }

/-- The flags `-image alpine -timeout 30 -- echo hi`. -/
def echoFlags : Flags where
  ns := ""
  image := "alpine"
  timeout := 30
  cleanup := true
  insecure := false
  args := ["echo", "hi"]

/-- The options `main` builds from `echoFlags`. -/
def echoOptions : Options where
  Namespace := ""
  Image := "alpine"
  Command := ["echo", "hi"]
  Timeout := 30
  Cleanup := true
  ConfigFile := ""
  Auth := { MasterURL := "", Username := "", Password := "", Token := "", Insecure := false }

/-- As `happy`, but the creation of a namespace is refused. -/
def createForbidden : Script :=
  { happy with createNs := some "namespaces is forbidden" }

/-- As `happy`, but no completion signal arrives before the deadline. -/
def neverCompletes : Script :=
  { happy with outcome := WatchOutcome.timedOut }

/-- As `happy`, but the log stream of `pod-a` cannot be opened. -/
def logFails : Script :=
  { happy with
    logs := fun name =>
      if name = "pod-a" then LogResult.streamErr "container not found"
      else LogResult.content "hi\n" }

/-- The options of `echoOptions` with `-timeout 0`. -/
def foreverOptions : Options :=
  { echoOptions with Timeout := 0 }

/-- The options of `echoOptions` with `-timeout 1`. -/
def quickOptions : Options :=
  { echoOptions with Timeout := 1 }

/-- The flags of `echoFlags` with `-timeout 1`. -/
def quickFlags : Flags :=
  { echoFlags with timeout := 1 }

/-- A cluster whose world state is the list of the namespaces that exist on
it.  The caller may not read namespaces: every lookup is refused, whether the
namespace exists or not.  A creation fails for a name that exists and adds the
name otherwise; a deletion removes it.  Every other call succeeds, there is no
pod, and the job completes. -/
def lookupForbidden : Env (List String) where
  RandomString := fun _ nss => ("abcde", nss)
  defaultConfigFile := fun nss => ("/home/user/.kube/config", nss)
  BuildConfigFromFlags := fun _ _ nss => (none, nss)
  NewForConfig := fun _ nss => (none, nss)
  getNamespace := fun name nss => (some ("namespaces " ++ name ++ " is forbidden"), nss)
  createNamespace := fun name nss =>
    if name ∈ nss then (some ("namespaces " ++ name ++ " already exists"), nss)
    else (none, name :: nss)
  deleteNamespace := fun name nss => (none, nss.erase name)
  createJob := fun _ _ _ _ _ nss => (none, nss)
  deleteJob := fun _ _ nss => (none, nss)
  listPods := fun _ _ nss => (Except.ok [], nss)
  deletePod := fun _ _ nss => (none, nss)
  getLogs := fun _ _ nss => (LogResult.content "", nss)
  await := fun _ _ nss => (WatchOutcome.completed, nss)
  glogHeader := fun nss => ("E1104 11:29:00.000000       1 fnkube.go:210] ", nss)

/-- The session with which the run of `echoOptions` on `happy` enters `watch`. -/
def happySession : s1 where
  options :=
    { Namespace := "fnkube-ns-abcde", Image := "alpine", Command := ["echo", "hi"],
      Timeout := 30, Cleanup := true, ConfigFile := "/home/user/.kube/config",
      Auth := { MasterURL := "", Username := "", Password := "", Token := "",
                Insecure := false } }
  jobName := "fnkube-job-abcde"
  createdNamespace := true
  stdout := ""
  stderr := ""

/-- The state with which the run of `echoOptions` on `happy` enters `watch`. -/
def happyEntry : St Unit where
  world := ()
  trace :=
    [{ call := Call.createNamespace "fnkube-ns-abcde", reply := Reply.done },
     { call := Call.createJob "fnkube-ns-abcde" "fnkube-job-abcde" "fnkube-container-abcde"
         "alpine" ["echo", "hi"], reply := Reply.done }]


/-- The calls of a sequence of events stop at the first failure, whose error
is the result: no event follows a failed one, a failed event gives the
result, and the result is `nil` exactly when no event failed. -/
def FailFast (evs : List Event) (err : GoError) : Prop :=
  (∀ pre ev post e, evs = pre ++ ev :: post → ev.reply = Reply.failed e →
      post = [] ∧ err = some e) ∧
  (err = none ↔ ∀ ev ∈ evs, ∀ e, ev.reply ≠ Reply.failed e)

/-! ## Fail-fast sequences of calls -/

theorem failFast_nil : FailFast [] none := by
  refine ⟨?_, ?_⟩
  · intro pre ev post e h
    simp at h
  · simp

theorem failFast_single_failed (c : Call) (e : String) :
    FailFast [{ call := c, reply := Reply.failed e }] (some e) := by
  refine ⟨?_, ?_⟩
  · intro pre ev post e1 h hr
    cases pre with
    | nil =>
      simp at h
      obtain ⟨h1, h2⟩ := h
      subst h1
      simp at hr
      exact ⟨h2, by rw [hr]⟩
    | cons a pre => simp at h
  · simp

theorem failFast_cons {ev : Event} {rest : List Event} {err : GoError}
    (hev : ∀ e, ev.reply ≠ Reply.failed e) (h : FailFast rest err) :
    FailFast (ev :: rest) err := by
  obtain ⟨h1, h2⟩ := h
  refine ⟨?_, ?_⟩
  · intro pre x post e hx hr
    cases pre with
    | nil =>
      simp at hx
      obtain ⟨hx1, _⟩ := hx
      subst hx1
      exact absurd hr (hev e)
    | cons a pre =>
      simp at hx
      exact h1 pre x post e hx.2 hr
  · rw [h2]
    constructor
    · intro h ev1 hmem
      rcases List.mem_cons.mp hmem with h3 | h3
      · subst h3; exact hev
      · exact h ev1 h3
    · intro h ev1 hmem
      exact h ev1 (List.mem_cons_of_mem _ hmem)

theorem failFast_append {a b : List Event} {err : GoError}
    (ha : ∀ ev ∈ a, ∀ e, ev.reply ≠ Reply.failed e) (hb : FailFast b err) :
    FailFast (a ++ b) err := by
  induction a with
  | nil => simpa using hb
  | cons x a ih =>
    rw [List.cons_append]
    exact failFast_cons (ha x (List.mem_cons_self _ _))
      (ih (fun ev hmem => ha ev (List.mem_cons_of_mem _ hmem)))

theorem failFast_none_all {evs : List Event} (h : FailFast evs none) :
    ∀ ev ∈ evs, ∀ e, ev.reply ≠ Reply.failed e :=
  h.2.mp rfl

/-! ## The cleanup -/

theorem deletePods_spec (env : Env σ) (ns : String) (pods : List Pod) (w : St σ) :
    ∃ evs, (deletePods env ns pods w).2.trace = w.trace ++ evs ∧
      FailFast evs (deletePods env ns pods w).1 ∧
      (∃ rest, evs.map Event.call ++ rest = pods.map (fun pod => Call.deletePod ns pod.name)) ∧
      ((deletePods env ns pods w).1 = none →
        evs.map Event.call = pods.map (fun pod => Call.deletePod ns pod.name)) := by
  induction pods generalizing w with
  | nil => exact ⟨[], by simp [deletePods], failFast_nil, ⟨[], rfl⟩, fun _ => rfl⟩
  | cons pod rest ih =>
    rcases h : env.deletePod ns pod.name w.world with ⟨_ | e, world⟩
    · obtain ⟨evs, h1, h2, ⟨r, h3⟩, h4⟩ :=
        ih (w.record (Call.deletePod ns pod.name) Reply.done world)
      refine ⟨{ call := Call.deletePod ns pod.name, reply := Reply.done } :: evs, ?_, ?_, ?_, ?_⟩
      · simp only [deletePods, h, h1]
        simp [St.record]
      · simp only [deletePods, h]
        exact failFast_cons (by simp) h2
      · exact ⟨r, by simp [← h3]⟩
      · intro hn
        simp only [deletePods, h] at hn
        simp [h4 hn]
    · refine ⟨[{ call := Call.deletePod ns pod.name, reply := Reply.failed e }], ?_, ?_, ?_, ?_⟩
      · simp [deletePods, h, St.record]
      · simp only [deletePods, h]
        exact failFast_single_failed _ _
      · exact ⟨rest.map (fun pod => Call.deletePod ns pod.name), by simp⟩
      · intro hn
        simp [deletePods, h] at hn

@[simp] theorem St.record_world (w : St σ) (c : Call) (r : Reply) (world : σ) :
    (w.record c r world).world = world := rfl

@[simp] theorem St.record_trace (w : St σ) (c : Call) (r : Reply) (world : σ) :
    (w.record c r world).trace = w.trace ++ [{ call := c, reply := r }] := rfl

theorem deleteStuff_session (env : Env σ) (s : s1) (w : St σ) :
    (deleteStuff env s w).2.1 = s := by
  unfold deleteStuff
  repeat (first | rfl | split | dsimp only)

theorem deleteStuff_disabled (env : Env σ) (s : s1) (w : St σ)
    (h : s.options.Cleanup = false) : deleteStuff env s w = (none, s, w) := by
  simp [deleteStuff, h]

/-- The whole of what the cleanup does when it is enabled, on the events it
appends to the trace. -/
theorem deleteStuff_spec (env : Env σ) (s : s1) (w : St σ)
    (hc : s.options.Cleanup = true) :
    ∃ evs, (deleteStuff env s w).2.2.trace = w.trace ++ evs ∧
      FailFast evs (deleteStuff env s w).1 ∧
      (∃ rest, evs.map Event.call ++ rest =
        cleanupPlan s.options.Namespace s.jobName (listedPods evs) s.createdNamespace) ∧
      ((deleteStuff env s w).1 = none →
        evs.map Event.call =
          cleanupPlan s.options.Namespace s.jobName (listedPods evs) s.createdNamespace) := by
  rcases hj : env.deleteJob s.options.Namespace s.jobName w.world with ⟨_ | e, world⟩
  swap
  · have hres : deleteStuff env s w = (some e, s,
        w.record (Call.deleteJob s.options.Namespace s.jobName) (Reply.failed e) world) := by
      simp [deleteStuff, hc, hj]
    rw [hres]
    refine ⟨[{ call := Call.deleteJob s.options.Namespace s.jobName, reply := Reply.failed e }],
      rfl, failFast_single_failed _ _, ⟨_, rfl⟩, ?_⟩
    intro hn
    simp at hn
  rcases hl : env.listPods s.options.Namespace (jobSelector s.jobName) world
    with ⟨e | pods, world1⟩
  · have hres : deleteStuff env s w = (some e, s,
        (w.record (Call.deleteJob s.options.Namespace s.jobName) Reply.done world).record
          (Call.listPods s.options.Namespace (jobSelector s.jobName)) (Reply.failed e)
          world1) := by
      simp [deleteStuff, hc, hj, hl]
    rw [hres]
    refine ⟨[{ call := Call.deleteJob s.options.Namespace s.jobName, reply := Reply.done },
        { call := Call.listPods s.options.Namespace (jobSelector s.jobName),
          reply := Reply.failed e }], by simp,
      failFast_cons (by simp) (failFast_single_failed _ _), ⟨_, rfl⟩, ?_⟩
    intro hn
    simp at hn
  obtain ⟨pevs, hp1, hp2, ⟨prest, hp3⟩, hp4⟩ := deletePods_spec env s.options.Namespace pods
    ((w.record (Call.deleteJob s.options.Namespace s.jobName) Reply.done world).record
      (Call.listPods s.options.Namespace (jobSelector s.jobName)) (Reply.podList pods) world1)
  rcases hd : deletePods env s.options.Namespace pods
    ((w.record (Call.deleteJob s.options.Namespace s.jobName) Reply.done world).record
      (Call.listPods s.options.Namespace (jobSelector s.jobName)) (Reply.podList pods) world1)
    with ⟨_ | e, w2⟩
  swap
  · rw [hd] at hp1 hp2
    have hres : deleteStuff env s w = (some e, s, w2) := by
      simp [deleteStuff, hc, hj, hl, hd]
    rw [hres]
    refine ⟨{ call := Call.deleteJob s.options.Namespace s.jobName, reply := Reply.done } ::
        { call := Call.listPods s.options.Namespace (jobSelector s.jobName),
          reply := Reply.podList pods } :: pevs, ?_,
        failFast_cons (by simp) (failFast_cons (by simp) hp2), ?_, ?_⟩
    · simp at hp1
      simp [hp1]
    · refine ⟨prest ++ (if s.createdNamespace then [Call.deleteNamespace s.options.Namespace]
        else []), ?_⟩
      simp [cleanupPlan, listedPods, ← hp3]
    · intro hn
      simp at hn
  rw [hd] at hp1 hp2 hp4
  have hp5 := hp4 rfl
  have hok := failFast_none_all hp2
  simp at hp1
  cases hown : s.createdNamespace with
  | false =>
    have hres : deleteStuff env s w = (none, s, w2) := by
      simp [deleteStuff, hc, hj, hl, hd, hown]
    rw [hres]
    refine ⟨{ call := Call.deleteJob s.options.Namespace s.jobName, reply := Reply.done } ::
        { call := Call.listPods s.options.Namespace (jobSelector s.jobName),
          reply := Reply.podList pods } :: pevs, by simp [hp1],
        failFast_cons (by simp) (failFast_cons (by simp) hp2), ?_, ?_⟩
    · exact ⟨[], by simp [cleanupPlan, listedPods, hp5]⟩
    · intro _
      simp [cleanupPlan, listedPods, hp5]
  | true =>
    rcases hn : env.deleteNamespace s.options.Namespace w2.world with ⟨_ | e, world3⟩
    · have hres : deleteStuff env s w = (none, s,
          w2.record (Call.deleteNamespace s.options.Namespace) Reply.done world3) := by
        simp [deleteStuff, hc, hj, hl, hd, hown, hn]
      rw [hres]
      refine ⟨{ call := Call.deleteJob s.options.Namespace s.jobName, reply := Reply.done } ::
          { call := Call.listPods s.options.Namespace (jobSelector s.jobName),
            reply := Reply.podList pods } ::
          (pevs ++ [{ call := Call.deleteNamespace s.options.Namespace, reply := Reply.done }]),
          by simp [hp1], ?_, ?_, ?_⟩
      · refine failFast_cons (by simp) (failFast_cons (by simp) (failFast_append hok ?_))
        exact failFast_cons (by simp) failFast_nil
      · exact ⟨[], by simp [cleanupPlan, listedPods, hp5]⟩
      · intro _
        simp [cleanupPlan, listedPods, hp5]
    · have hres : deleteStuff env s w = (some e, s,
          w2.record (Call.deleteNamespace s.options.Namespace) (Reply.failed e) world3) := by
        simp [deleteStuff, hc, hj, hl, hd, hown, hn]
      rw [hres]
      refine ⟨{ call := Call.deleteJob s.options.Namespace s.jobName, reply := Reply.done } ::
          { call := Call.listPods s.options.Namespace (jobSelector s.jobName),
            reply := Reply.podList pods } ::
          (pevs ++ [{ call := Call.deleteNamespace s.options.Namespace,
                      reply := Reply.failed e }]),
          by simp [hp1], ?_, ?_, ?_⟩
      · refine failFast_cons (by simp) (failFast_cons (by simp) (failFast_append hok ?_))
        exact failFast_single_failed _ _
      · exact ⟨[], by simp [cleanupPlan, listedPods, hp5]⟩
      · intro _
        simp [cleanupPlan, listedPods, hp5]

theorem deletePods_calls (env : Env σ) (ns : String) (pods : List Pod) (w : St σ) :
    ∃ evs, (deletePods env ns pods w).2.trace = w.trace ++ evs ∧
      (∀ ev ∈ evs, ev.call.isNamespaceWrite = false ∧ ev.call.isDelete = true) ∧
      (((deletePods env ns pods w).1 = none ∧ ∀ ev ∈ evs, ∀ e, ev.reply ≠ Reply.failed e) ∨
       ((deletePods env ns pods w).1 ≠ none ∧ ∃ ev ∈ evs, ∃ e, ev.reply = Reply.failed e)) := by
  induction pods generalizing w with
  | nil => exact ⟨[], by simp [deletePods], by simp, Or.inl ⟨rfl, by simp⟩⟩
  | cons pod rest ih =>
    rcases h : env.deletePod ns pod.name w.world with ⟨_ | e, world⟩
    · obtain ⟨evs, h1, h2, h3⟩ :=
        ih (w.record (Call.deletePod ns pod.name) Reply.done world)
      refine ⟨{ call := Call.deletePod ns pod.name, reply := Reply.done } :: evs, ?_, ?_, ?_⟩
      · simp only [deletePods, h, h1]
        simp
      · intro ev hev
        rcases List.mem_cons.mp hev with hx | hx
        · subst hx
          exact ⟨rfl, rfl⟩
        · exact h2 ev hx
      · simp only [deletePods, h]
        rcases h3 with ⟨h4, h5⟩ | ⟨h4, ev, h5, h6⟩
        · refine Or.inl ⟨h4, ?_⟩
          intro ev hev
          rcases List.mem_cons.mp hev with hx | hx
          · subst hx
            simp
          · exact h5 ev hx
        · exact Or.inr ⟨h4, ev, List.mem_cons_of_mem _ h5, h6⟩
    · refine ⟨[{ call := Call.deletePod ns pod.name, reply := Reply.failed e }], ?_, ?_, ?_⟩
      · simp [deletePods, h]
      · intro ev hev
        rw [List.mem_singleton.mp hev]
        exact ⟨rfl, rfl⟩
      · simp only [deletePods, h]
        exact Or.inr ⟨by simp, _, List.mem_singleton.mpr rfl, e, rfl⟩

/-- The shape of an enabled cleanup: the steps on the job and the pods, none
of which touches a namespace, followed by the deletion of the namespace
exactly when no step failed and the namespace is owned. -/
theorem deleteStuff_shape (env : Env σ) (s : s1) (w : St σ)
    (hc : s.options.Cleanup = true) :
    ∃ steps nsPart, (deleteStuff env s w).2.2.trace = w.trace ++ steps ++ nsPart ∧
      (∀ ev ∈ steps, ev.call.isNamespaceWrite = false) ∧
      (((∃ ev ∈ steps, ∃ e, ev.reply = Reply.failed e) ∧ nsPart = []) ∨
       ((∀ ev ∈ steps, ∀ e, ev.reply ≠ Reply.failed e) ∧
        nsPart = if s.createdNamespace then
          [{ call := Call.deleteNamespace s.options.Namespace,
             reply := Reply.ofError (deleteStuff env s w).1 }]
        else [])) := by
  rcases hj : env.deleteJob s.options.Namespace s.jobName w.world with ⟨_ | e, world⟩
  swap
  · have hres : deleteStuff env s w = (some e, s,
        w.record (Call.deleteJob s.options.Namespace s.jobName) (Reply.failed e) world) := by
      simp [deleteStuff, hc, hj]
    rw [hres]
    exact ⟨[{ call := Call.deleteJob s.options.Namespace s.jobName, reply := Reply.failed e }],
      [], by simp, by simp [Call.isNamespaceWrite], Or.inl ⟨by simp, rfl⟩⟩
  rcases hl : env.listPods s.options.Namespace (jobSelector s.jobName) world
    with ⟨e | pods, world1⟩
  · have hres : deleteStuff env s w = (some e, s,
        (w.record (Call.deleteJob s.options.Namespace s.jobName) Reply.done world).record
          (Call.listPods s.options.Namespace (jobSelector s.jobName)) (Reply.failed e)
          world1) := by
      simp [deleteStuff, hc, hj, hl]
    rw [hres]
    exact ⟨[{ call := Call.deleteJob s.options.Namespace s.jobName, reply := Reply.done },
        { call := Call.listPods s.options.Namespace (jobSelector s.jobName),
          reply := Reply.failed e }], [], by simp, by simp [Call.isNamespaceWrite],
      Or.inl ⟨by simp, rfl⟩⟩
  obtain ⟨pevs, hp1, hp2, hp3⟩ := deletePods_calls env s.options.Namespace pods
    ((w.record (Call.deleteJob s.options.Namespace s.jobName) Reply.done world).record
      (Call.listPods s.options.Namespace (jobSelector s.jobName)) (Reply.podList pods) world1)
  have hsteps : ∀ ev ∈
      { call := Call.deleteJob s.options.Namespace s.jobName, reply := Reply.done } ::
        { call := Call.listPods s.options.Namespace (jobSelector s.jobName),
          reply := Reply.podList pods } :: pevs, ev.call.isNamespaceWrite = false := by
    intro ev hev
    rcases List.mem_cons.mp hev with hx | hx
    · subst hx; rfl
    · rcases List.mem_cons.mp hx with hy | hy
      · subst hy; rfl
      · exact (hp2 ev hy).1
  rcases hd : deletePods env s.options.Namespace pods
    ((w.record (Call.deleteJob s.options.Namespace s.jobName) Reply.done world).record
      (Call.listPods s.options.Namespace (jobSelector s.jobName)) (Reply.podList pods) world1)
    with ⟨_ | e, w2⟩
  swap
  · rw [hd] at hp1 hp3
    have hres : deleteStuff env s w = (some e, s, w2) := by
      simp [deleteStuff, hc, hj, hl, hd]
    rw [hres]
    refine ⟨_, [], ?_, hsteps, Or.inl ⟨?_, rfl⟩⟩
    · simp at hp1
      simp [hp1]
    · rcases hp3 with ⟨h4, _⟩ | ⟨_, ev, h5, h6⟩
      · simp at h4
      · exact ⟨ev, List.mem_cons_of_mem _ (List.mem_cons_of_mem _ h5), h6⟩
  rw [hd] at hp1 hp3
  simp at hp1
  have hok : ∀ ev ∈
      { call := Call.deleteJob s.options.Namespace s.jobName, reply := Reply.done } ::
        { call := Call.listPods s.options.Namespace (jobSelector s.jobName),
          reply := Reply.podList pods } :: pevs, ∀ e, ev.reply ≠ Reply.failed e := by
    intro ev hev
    rcases List.mem_cons.mp hev with hx | hx
    · subst hx; simp
    · rcases List.mem_cons.mp hx with hy | hy
      · subst hy; simp
      · rcases hp3 with ⟨_, h5⟩ | ⟨h4, _⟩
        · exact h5 ev hy
        · simp at h4
  cases hown : s.createdNamespace with
  | false =>
    have hres : deleteStuff env s w = (none, s, w2) := by
      simp [deleteStuff, hc, hj, hl, hd, hown]
    rw [hres]
    exact ⟨_, [], by simp [hp1], hsteps, Or.inr ⟨hok, by simp⟩⟩
  | true =>
    rcases hn : env.deleteNamespace s.options.Namespace w2.world with ⟨_ | e, world3⟩
    · have hres : deleteStuff env s w = (none, s,
          w2.record (Call.deleteNamespace s.options.Namespace) Reply.done world3) := by
        simp [deleteStuff, hc, hj, hl, hd, hown, hn]
      rw [hres]
      exact ⟨_, [{ call := Call.deleteNamespace s.options.Namespace, reply := Reply.done }],
        by simp [hp1], hsteps, Or.inr ⟨hok, by simp [Reply.ofError]⟩⟩
    · have hres : deleteStuff env s w = (some e, s,
          w2.record (Call.deleteNamespace s.options.Namespace) (Reply.failed e) world3) := by
        simp [deleteStuff, hc, hj, hl, hd, hown, hn]
      rw [hres]
      exact ⟨_, [{ call := Call.deleteNamespace s.options.Namespace,
                   reply := Reply.failed e }],
        by simp [hp1], hsteps, Or.inr ⟨hok, by simp [Reply.ofError]⟩⟩

/-! ## The namespace -/

theorem validateNamespace_generated (env : Env σ) (s : s1) (w : St σ)
    {suffix : String} {world1 world2 : σ} {err : GoError}
    (h : s.options.Namespace.length = 0)
    (hr : env.RandomString 5 w.world = (suffix, world1))
    (hc : env.createNamespace (fnkubePrefix ++ "-ns-" ++ suffix) world1 = (err, world2)) :
    validateNamespace env s w =
      (err.map (fun e => "Error creating namespace " ++ (fnkubePrefix ++ "-ns-" ++ suffix)
          ++ ": " ++ e),
       { s with
          options := { s.options with Namespace := fnkubePrefix ++ "-ns-" ++ suffix },
          createdNamespace := true },
       St.record { w with world := world1 }
         (Call.createNamespace (fnkubePrefix ++ "-ns-" ++ suffix)) (Reply.ofError err)
         world2) := by
  cases err <;> simp [validateNamespace, resolveNamespace, h, hr, hc, Reply.ofError]

theorem validateNamespace_missing (env : Env σ) (s : s1) (w : St σ)
    {e0 : String} {world1 world2 : σ} {err : GoError}
    (h : s.options.Namespace.length ≠ 0)
    (hg : env.getNamespace s.options.Namespace w.world = (some e0, world1))
    (hc : env.createNamespace s.options.Namespace world1 = (err, world2)) :
    validateNamespace env s w =
      (err.map (fun e => "Error creating namespace " ++ s.options.Namespace ++ ": " ++ e),
       { s with createdNamespace := true },
       (w.record (Call.getNamespace s.options.Namespace) (Reply.failed e0) world1).record
         (Call.createNamespace s.options.Namespace) (Reply.ofError err) world2) := by
  cases err <;> simp [validateNamespace, resolveNamespace, h, hg, hc, Reply.ofError]

theorem validateNamespace_found (env : Env σ) (s : s1) (w : St σ) {world1 : σ}
    (h0 : s.createdNamespace = false)
    (h : s.options.Namespace.length ≠ 0)
    (hg : env.getNamespace s.options.Namespace w.world = (none, world1)) :
    validateNamespace env s w =
      (none, s, w.record (Call.getNamespace s.options.Namespace) Reply.done world1) := by
  simp [validateNamespace, resolveNamespace, h, hg, h0]

/-- The three ways of the namespace stage on a session that does not own a
namespace yet: a generated name, a given name whose lookup fails, a given name
that is found. -/
theorem validateNamespace_cases (env : Env σ) (s : s1) (w : St σ)
    (h0 : s.createdNamespace = false) :
    (s.options.Namespace.length = 0 ∧
      validateNamespace env s w =
        ((env.createNamespace (fnkubePrefix ++ "-ns-" ++ (env.RandomString 5 w.world).1)
            (env.RandomString 5 w.world).2).1.map
          (fun e => "Error creating namespace " ++
            (fnkubePrefix ++ "-ns-" ++ (env.RandomString 5 w.world).1) ++ ": " ++ e),
         { s with
            options := { s.options with
              Namespace := fnkubePrefix ++ "-ns-" ++ (env.RandomString 5 w.world).1 },
            createdNamespace := true },
         St.record { w with world := (env.RandomString 5 w.world).2 }
           (Call.createNamespace (fnkubePrefix ++ "-ns-" ++ (env.RandomString 5 w.world).1))
           (Reply.ofError (env.createNamespace
             (fnkubePrefix ++ "-ns-" ++ (env.RandomString 5 w.world).1)
             (env.RandomString 5 w.world).2).1)
           (env.createNamespace (fnkubePrefix ++ "-ns-" ++ (env.RandomString 5 w.world).1)
             (env.RandomString 5 w.world).2).2)) ∨
    (s.options.Namespace.length ≠ 0 ∧
      ∃ e0, (env.getNamespace s.options.Namespace w.world).1 = some e0 ∧
      validateNamespace env s w =
        ((env.createNamespace s.options.Namespace
            (env.getNamespace s.options.Namespace w.world).2).1.map
          (fun e => "Error creating namespace " ++ s.options.Namespace ++ ": " ++ e),
         { s with createdNamespace := true },
         (w.record (Call.getNamespace s.options.Namespace) (Reply.failed e0)
            (env.getNamespace s.options.Namespace w.world).2).record
           (Call.createNamespace s.options.Namespace)
           (Reply.ofError (env.createNamespace s.options.Namespace
             (env.getNamespace s.options.Namespace w.world).2).1)
           (env.createNamespace s.options.Namespace
             (env.getNamespace s.options.Namespace w.world).2).2)) ∨
    (s.options.Namespace.length ≠ 0 ∧
      (env.getNamespace s.options.Namespace w.world).1 = none ∧
      validateNamespace env s w =
        (none, s, w.record (Call.getNamespace s.options.Namespace) Reply.done
          (env.getNamespace s.options.Namespace w.world).2)) := by
  by_cases h : s.options.Namespace.length = 0
  · exact Or.inl ⟨h, validateNamespace_generated env s w h rfl rfl⟩
  · rcases hg : env.getNamespace s.options.Namespace w.world with ⟨_ | e0, world1⟩
    · exact Or.inr (Or.inr ⟨h, rfl, validateNamespace_found env s w h0 h hg⟩)
    · exact Or.inr (Or.inl ⟨h, e0, rfl, validateNamespace_missing env s w h hg rfl⟩)

/-- The calls of the namespace stage are lookups and creations of namespaces. -/
theorem validateNamespace_trace (env : Env σ) (s : s1) (w : St σ)
    (h0 : s.createdNamespace = false) :
    ∃ evs, (validateNamespace env s w).2.2.trace = w.trace ++ evs ∧
      ∀ ev ∈ evs, ev.call.isDelete = false ∧ ev.call.isCreateJob = false ∧
        ev.call.isWatchStep = false := by
  rcases validateNamespace_cases env s w h0 with ⟨_, h⟩ | ⟨_, e0, _, h⟩ | ⟨_, _, h⟩
  · rw [h]
    exact ⟨[_], rfl, by simp [Call.isDelete, Call.isCreateJob, Call.isWatchStep]⟩
  · rw [h]
    exact ⟨[{ call := Call.getNamespace s.options.Namespace, reply := Reply.failed e0 },
        { call := Call.createNamespace s.options.Namespace,
          reply := Reply.ofError (env.createNamespace s.options.Namespace
            (env.getNamespace s.options.Namespace w.world).2).1 }],
      by simp, by simp [Call.isDelete, Call.isCreateJob, Call.isWatchStep]⟩
  · rw [h]
    exact ⟨[_], rfl, by simp [Call.isDelete, Call.isCreateJob, Call.isWatchStep]⟩

/-! ## What each stage leaves unchanged -/

theorem validateConfig_trace (env : Env σ) (s : s1) (w : St σ) :
    (validateConfig env s w).2.2.trace = w.trace := by
  unfold validateConfig
  repeat (first | rfl | split | dsimp only)

theorem validateConfig_frame (env : Env σ) (s : s1) (w : St σ) :
    (validateConfig env s w).2.1.createdNamespace = s.createdNamespace ∧
    (validateConfig env s w).2.1.stdout = s.stdout ∧
    (validateConfig env s w).2.1.stderr = s.stderr ∧
    (validateConfig env s w).2.1.jobName = s.jobName ∧
    (validateConfig env s w).2.1.options.Namespace = s.options.Namespace ∧
    (validateConfig env s w).2.1.options.Cleanup = s.options.Cleanup := by
  unfold validateConfig
  repeat (first | exact ⟨rfl, rfl, rfl, rfl, rfl, rfl⟩ | split | dsimp only)

theorem validateConfig_timeout (env : Env σ) (s : s1) (w : St σ)
    (h : (validateConfig env s w).1 = none) :
    (validateConfig env s w).2.1.options.Timeout =
      if s.options.Timeout = 0 then MaxInt32 else s.options.Timeout := by
  simp only [validateConfig] at h ⊢
  split_ifs at h ⊢ <;> rfl

theorem createClient_session (env : Env σ) (s : s1) (w : St σ) :
    (createClient env s w).2.1 = s := by
  unfold createClient
  repeat (first | rfl | split | dsimp only)

theorem createClient_trace (env : Env σ) (s : s1) (w : St σ) :
    (createClient env s w).2.2.trace = w.trace := by
  unfold createClient
  repeat (first | rfl | split | dsimp only)

theorem createJob_session (env : Env σ) (s : s1) (w : St σ) :
    (createJob env s w).2.1 =
      { s with jobName := fnkubePrefix ++ "-job-" ++ (env.RandomString 5 w.world).1 } := rfl

theorem createJob_trace (env : Env σ) (s : s1) (w : St σ) :
    ∃ ev, ev.call.isCreateJob = true ∧ (createJob env s w).2.2.trace = w.trace ++ [ev] := by
  refine ⟨_, ?_, rfl⟩
  rfl

/-! ## Reading the logs -/

theorem stdOut_frame (env : Env σ) (pod : Pod) (s : s1) (w : St σ) :
    (stdOut env pod s w).2.1.options = s.options ∧
    (stdOut env pod s w).2.1.jobName = s.jobName ∧
    (stdOut env pod s w).2.1.createdNamespace = s.createdNamespace ∧
    (stdOut env pod s w).2.1.stderr = s.stderr := by
  unfold stdOut
  repeat (first | exact ⟨rfl, rfl, rfl, rfl⟩ | split | dsimp only)

theorem stdOut_trace (env : Env σ) (pod : Pod) (s : s1) (w : St σ) :
    ∃ ev, ev.call = Call.getLogs s.options.Namespace pod.name ∧
      (stdOut env pod s w).2.2.trace = w.trace ++ [ev] := by
  unfold stdOut
  split <;> exact ⟨_, rfl, rfl⟩

theorem outputLoop_frame (env : Env σ) (pods : List Pod) (s : s1) (w : St σ) :
    (outputLoop env pods s w).2.1.options = s.options ∧
    (outputLoop env pods s w).2.1.jobName = s.jobName ∧
    (outputLoop env pods s w).2.1.createdNamespace = s.createdNamespace ∧
    (outputLoop env pods s w).2.1.stderr = s.stderr := by
  induction pods generalizing s w with
  | nil => exact ⟨rfl, rfl, rfl, rfl⟩
  | cons pod rest ih =>
    have hf := stdOut_frame env pod s w
    rcases h : stdOut env pod s w with ⟨_ | e, s2, w2⟩
    · rw [h] at hf
      simp only [outputLoop, h]
      obtain ⟨i1, i2, i3, i4⟩ := ih s2 w2
      exact ⟨i1.trans hf.1, i2.trans hf.2.1, i3.trans hf.2.2.1, i4.trans hf.2.2.2⟩
    · rw [h] at hf
      simp only [outputLoop, h]
      exact hf

theorem outputLoop_trace (env : Env σ) (pods : List Pod) (s : s1) (w : St σ) :
    ∃ evs, (outputLoop env pods s w).2.2.trace = w.trace ++ evs ∧
      ∀ ev ∈ evs, ev.call.isGetLogs = true := by
  induction pods generalizing s w with
  | nil => exact ⟨[], by simp [outputLoop], by simp⟩
  | cons pod rest ih =>
    obtain ⟨ev, hev, ht⟩ := stdOut_trace env pod s w
    rcases h : stdOut env pod s w with ⟨_ | e, s2, w2⟩
    · rw [h] at ht
      simp only [outputLoop, h]
      obtain ⟨evs, i1, i2⟩ := ih s2 w2
      refine ⟨ev :: evs, ?_, ?_⟩
      · rw [i1]
        simp only at ht
        rw [ht]
        simp
      · intro x hx
        rcases List.mem_cons.mp hx with hx | hx
        · subst hx
          rw [hev]
          rfl
        · exact i2 x hx
    · rw [h] at ht
      simp only [outputLoop, h]
      refine ⟨[ev], ht, ?_⟩
      intro x hx
      rw [List.mem_singleton.mp hx, hev]
      rfl

/-- When every log of the list is read, the loop leaves the last one in
`stdout`, or `stdout` as it was for an empty list. -/
theorem outputLoop_stdout (env : Env σ) (pods : List Pod) (s : s1) (w : St σ)
    (logs : List String)
    (h : podLogs env s.options.Namespace pods w.world = some logs) :
    (outputLoop env pods s w).2.1.stdout = logs.getLast?.getD s.stdout ∧
      (outputLoop env pods s w).1 = none ∧ logs.length = pods.length := by
  induction pods generalizing s w logs with
  | nil =>
    simp [podLogs] at h
    subst h
    simp [outputLoop]
  | cons pod rest ih =>
    rcases hg : env.getLogs s.options.Namespace pod.name w.world with ⟨_ | _ | c, world⟩
    · simp [podLogs, hg] at h
    · simp [podLogs, hg] at h
    · simp only [podLogs, hg, Option.map_eq_some'] at h
      obtain ⟨cs, hcs, hl⟩ := h
      subst hl
      have hs : stdOut env pod s w = (none, { s with stdout := c },
          w.record (Call.getLogs s.options.Namespace pod.name) (Reply.logText c) world) := by
        simp [stdOut, hg]
      simp only [outputLoop, hs]
      obtain ⟨i1, i2, i3⟩ := ih { s with stdout := c }
        (w.record (Call.getLogs s.options.Namespace pod.name) (Reply.logText c) world) cs
        (by simpa using hcs)
      refine ⟨?_, i2, by simp [i3]⟩
      rw [i1]
      cases cs with
      | nil => simp
      | cons a cs =>
        rw [List.getLast?_cons_cons, List.getLast?_eq_getLast _ (List.cons_ne_nil a cs)]
        rfl

theorem isWatchStep_of_isGetLogs {c : Call} (h : c.isGetLogs = true) :
    c.isWatchStep = true := by
  cases c <;> simp_all [Call.isGetLogs, Call.isWatchStep]

theorem isWatchStep_not_other {c : Call} (h : c.isWatchStep = true) :
    c.isDelete = false ∧ c.isNamespaceWrite = false ∧ c.isCreateJob = false ∧
      ∀ n, c ≠ Call.getNamespace n := by
  cases c <;> simp_all [Call.isWatchStep, Call.isDelete, Call.isNamespaceWrite, Call.isCreateJob]

theorem output_frame (env : Env σ) (s : s1) (w : St σ) :
    (output env s w).2.1.options = s.options ∧
    (output env s w).2.1.jobName = s.jobName ∧
    (output env s w).2.1.createdNamespace = s.createdNamespace ∧
    (output env s w).2.1.stderr = s.stderr := by
  unfold output
  split
  · exact ⟨rfl, rfl, rfl, rfl⟩
  · exact outputLoop_frame env _ s _

theorem output_trace (env : Env σ) (s : s1) (w : St σ) :
    ∃ evs, (output env s w).2.2.trace = w.trace ++ evs ∧
      ∀ ev ∈ evs, ev.call.isWatchStep = true := by
  unfold output
  split
  · exact ⟨[_], rfl, by simp [Call.isWatchStep]⟩
  · next pods world heq =>
    obtain ⟨evs, h1, h2⟩ := outputLoop_trace env pods s
      (w.record (Call.listPods s.options.Namespace (jobSelector s.jobName))
        (Reply.podList pods) world)
    refine ⟨{ call := Call.listPods s.options.Namespace (jobSelector s.jobName),
              reply := Reply.podList pods } :: evs, by rw [h1]; simp, ?_⟩
    intro ev hev
    rcases List.mem_cons.mp hev with h | h
    · subst h; rfl
    · exact isWatchStep_of_isGetLogs (h2 ev h)

/-! ## The wait -/

theorem watchSelect_timedOut (env : Env σ) (s : s1) (w : St σ) {world : σ}
    (h : env.await s.options.Namespace (timerDuration s.options.Timeout) w.world =
      (WatchOutcome.timedOut, world)) :
    watchSelect env s w =
      (s, (((w.record (Call.runController s.options.Namespace) Reply.done w.world).record
        (Call.select (timerDuration s.options.Timeout)) (Reply.woke WatchOutcome.timedOut)
        world).record Call.sendStop Reply.done world).record
        (Call.glogError ((env.glogHeader world).1 ++
          "Timeout while waiting for the Job to be completed\n"))
        Reply.done (env.glogHeader world).2) := by
  simp [watchSelect, h]

theorem watchSelect_completed (env : Env σ) (s : s1) (w : St σ) {world : σ}
    (h : env.await s.options.Namespace (timerDuration s.options.Timeout) w.world =
      (WatchOutcome.completed, world)) :
    watchSelect env s w =
      ((output env s ((w.record (Call.runController s.options.Namespace) Reply.done
        w.world).record (Call.select (timerDuration s.options.Timeout))
        (Reply.woke WatchOutcome.completed) world)).2.1,
       (output env s ((w.record (Call.runController s.options.Namespace) Reply.done
        w.world).record (Call.select (timerDuration s.options.Timeout))
        (Reply.woke WatchOutcome.completed) world)).2.2) := by
  simp [watchSelect, h]

theorem watchSelect_frame (env : Env σ) (s : s1) (w : St σ) :
    (watchSelect env s w).1.options = s.options ∧
    (watchSelect env s w).1.jobName = s.jobName ∧
    (watchSelect env s w).1.createdNamespace = s.createdNamespace ∧
    (watchSelect env s w).1.stderr = s.stderr := by
  rcases h : env.await s.options.Namespace (timerDuration s.options.Timeout) w.world
    with ⟨_ | _, world⟩
  · rw [watchSelect_completed env s w h]
    exact output_frame env s _
  · rw [watchSelect_timedOut env s w h]
    exact ⟨rfl, rfl, rfl, rfl⟩

/-- The wait appends the start of the informer, the `select` with its timer
and outcome, and then only steps of the wait. -/
theorem watchSelect_trace (env : Env σ) (s : s1) (w : St σ) :
    ∃ o evs, (watchSelect env s w).2.trace =
        w.trace ++ { call := Call.runController s.options.Namespace, reply := Reply.done } ::
          { call := Call.select (timerDuration s.options.Timeout), reply := Reply.woke o } ::
          evs ∧
      ∀ ev ∈ evs, ev.call.isWatchStep = true := by
  rcases h : env.await s.options.Namespace (timerDuration s.options.Timeout) w.world
    with ⟨_ | _, world⟩
  · rw [watchSelect_completed env s w h]
    obtain ⟨evs, h1, h2⟩ := output_trace env s
      ((w.record (Call.runController s.options.Namespace) Reply.done
        w.world).record (Call.select (timerDuration s.options.Timeout))
        (Reply.woke WatchOutcome.completed) world)
    exact ⟨WatchOutcome.completed, evs, by rw [h1]; simp, h2⟩
  · rw [watchSelect_timedOut env s w h]
    exact ⟨WatchOutcome.timedOut,
      [{ call := Call.sendStop, reply := Reply.done },
       { call := Call.glogError ((env.glogHeader world).1 ++
           "Timeout while waiting for the Job to be completed\n"), reply := Reply.done }],
      by simp, by simp [Call.isWatchStep]⟩

theorem watch_eq (env : Env σ) (s : s1) (w : St σ) :
    watch env s w = deleteStuff env (watchSelect env s w).1 (watchSelect env s w).2 := rfl

theorem resolveNamespace_frame (env : Env σ) (s : s1) (w : St σ) :
    (resolveNamespace env s w).1.options.Cleanup = s.options.Cleanup ∧
    (resolveNamespace env s w).1.options.Timeout = s.options.Timeout ∧
    (resolveNamespace env s w).1.stdout = s.stdout ∧
    (resolveNamespace env s w).1.stderr = s.stderr := by
  unfold resolveNamespace
  repeat (first | exact ⟨rfl, rfl, rfl, rfl⟩ | split | dsimp only)

theorem validateNamespace_frame (env : Env σ) (s : s1) (w : St σ) :
    (validateNamespace env s w).2.1.options.Cleanup = s.options.Cleanup ∧
    (validateNamespace env s w).2.1.options.Timeout = s.options.Timeout ∧
    (validateNamespace env s w).2.1.stdout = s.stdout ∧
    (validateNamespace env s w).2.1.stderr = s.stderr := by
  have hr := resolveNamespace_frame env s w
  unfold validateNamespace
  rcases h : resolveNamespace env s w with ⟨s2, w2⟩
  rw [h] at hr
  dsimp only at hr ⊢
  repeat (first | exact hr | split)

/-! ## The pipeline -/

/-- The ways `run` can go: it aborts before the namespace stage without a
call, it aborts in the namespace stage, it aborts at the job submission, or
it reaches `watch`. -/
theorem run_cases (env : Env σ) (o : Options) (w : St σ) :
    ∃ sb wb, sb.createdNamespace = false ∧ sb.options.Namespace = o.Namespace ∧
      sb.options.Cleanup = o.Cleanup ∧ sb.stdout = "" ∧ sb.stderr = "" ∧
      wb.trace = w.trace ∧
      ((∃ e, run env (newSession o) w = (some e, sb, wb) ∧ reachWatch env o w = none) ∨
       (sb.options.Timeout = (if o.Timeout = 0 then MaxInt32 else o.Timeout) ∧
        ((∃ e, (validateNamespace env sb wb).1 = some e ∧
            run env (newSession o) w = validateNamespace env sb wb ∧
            reachWatch env o w = none) ∨
         ((validateNamespace env sb wb).1 = none ∧
          ((∃ e, (createJob env (validateNamespace env sb wb).2.1
                (validateNamespace env sb wb).2.2).1 = some e ∧
              run env (newSession o) w = createJob env (validateNamespace env sb wb).2.1
                (validateNamespace env sb wb).2.2 ∧
              reachWatch env o w = none) ∨
           ((createJob env (validateNamespace env sb wb).2.1
                (validateNamespace env sb wb).2.2).1 = none ∧
            run env (newSession o) w =
              watch env
                (createJob env (validateNamespace env sb wb).2.1
                  (validateNamespace env sb wb).2.2).2.1
                (createJob env (validateNamespace env sb wb).2.1
                  (validateNamespace env sb wb).2.2).2.2 ∧
            reachWatch env o w =
              some ((createJob env (validateNamespace env sb wb).2.1
                  (validateNamespace env sb wb).2.2).2.1,
                (createJob env (validateNamespace env sb wb).2.1
                  (validateNamespace env sb wb).2.2).2.2))))))) := by
  have hf := validateConfig_frame env (newSession o) w
  have ht := validateConfig_trace env (newSession o) w
  have htm := validateConfig_timeout env (newSession o) w
  rcases ha : validateConfig env (newSession o) w with ⟨_ | e, sa, wa⟩
  swap
  · rw [ha] at hf ht
    refine ⟨sa, wa, hf.1, hf.2.2.2.2.1, hf.2.2.2.2.2, hf.2.1, hf.2.2.1, ht, Or.inl ⟨e, ?_, ?_⟩⟩
    · simp [run, ha]
    · simp [reachWatch, ha]
  rw [ha] at hf ht htm
  have hcs := createClient_session env sa wa
  have hct := createClient_trace env sa wa
  rcases hb : createClient env sa wa with ⟨_ | e, sb, wb⟩
  swap
  · rw [hb] at hcs hct
    simp only at hcs hct
    subst hcs
    refine ⟨sb, wb, hf.1, hf.2.2.2.2.1, hf.2.2.2.2.2, hf.2.1, hf.2.2.1, hct.trans ht,
      Or.inl ⟨e, ?_, ?_⟩⟩
    · simp [run, ha, hb]
    · simp [reachWatch, ha, hb]
  rw [hb] at hcs hct
  simp only at hcs hct
  subst hcs
  refine ⟨sb, wb, hf.1, hf.2.2.2.2.1, hf.2.2.2.2.2, hf.2.1, hf.2.2.1, hct.trans ht,
    Or.inr ⟨htm rfl, ?_⟩⟩
  rcases hc : validateNamespace env sb wb with ⟨_ | e, sc, wc⟩
  swap
  · refine Or.inl ⟨e, rfl, ?_, ?_⟩
    · simp [run, ha, hb, hc]
    · simp [reachWatch, ha, hb, hc]
  refine Or.inr ⟨rfl, ?_⟩
  rcases hd : createJob env sc wc with ⟨_ | e, sd, wd⟩
  swap
  · refine Or.inl ⟨e, rfl, ?_, ?_⟩
    · simp [run, ha, hb, hc, hd]
    · simp [reachWatch, ha, hb, hc, hd]
  refine Or.inr ⟨rfl, ?_, ?_⟩
  · simp [run, ha, hb, hc, hd]
  · simp [reachWatch, ha, hb, hc, hd]

theorem reachWatch_spec (env : Env σ) (o : Options) (w : St σ) (s : s1) (w1 : St σ)
    (h : reachWatch env o w = some (s, w1)) :
    run env (newSession o) w = watch env s w1 ∧ s.stdout = "" ∧ s.stderr = "" ∧
      s.options.Cleanup = o.Cleanup ∧
      s.options.Timeout = (if o.Timeout = 0 then MaxInt32 else o.Timeout) := by
  obtain ⟨sb, wb, _, _, hcl, hout, herr, _, hcase⟩ := run_cases env o w
  rcases hcase with ⟨e, _, hn⟩ | ⟨htm, ⟨e, _, _, hn⟩ | ⟨_, ⟨e, _, _, hn⟩ | ⟨_, hrun, hr⟩⟩⟩
  · rw [hn] at h; cases h
  · rw [hn] at h; cases h
  · rw [hn] at h; cases h
  · rw [hr] at h
    have hf := validateNamespace_frame env sb wb
    have hj := createJob_session env (validateNamespace env sb wb).2.1
      (validateNamespace env sb wb).2.2
    simp only [Option.some.injEq, Prod.mk.injEq] at h
    obtain ⟨hs, hw⟩ := h
    rw [hs, hw] at hrun
    rw [hs] at hj
    refine ⟨hrun, ?_, ?_, ?_, ?_⟩
    · rw [hj]; exact hf.2.2.1.trans hout
    · rw [hj]; exact hf.2.2.2.trans herr
    · rw [hj]; exact hf.1.trans hcl
    · rw [hj]; exact hf.2.1.trans htm

theorem output_listed (env : Env σ) (s : s1) (w : St σ) {pods : List Pod} {world : σ}
    (h : env.listPods s.options.Namespace (jobSelector s.jobName) w.world =
      (Except.ok pods, world)) :
    output env s w = outputLoop env pods s
      (w.record (Call.listPods s.options.Namespace (jobSelector s.jobName))
        (Reply.podList pods) world) := by
  simp [output, h]

/-- C1: when the completion signal wins the race and the log of every pod
listed under `job-name=<jobName>` is read, the stdout returned by `Run` is the
log of the last pod of the list, whatever the logs of the earlier pods; it is
the single log for a list of one pod and the empty string for an empty list. -/
theorem Run_stdout_is_last_pod_log (env : Env σ) (o : Options) (world : σ) (s : s1)
    (w : St σ) (world1 world2 : σ) (pods : List Pod) (logs : List String)
    (hreach : reachWatch env o (St.start world) = some (s, w))
    (hrace : env.await s.options.Namespace (timerDuration s.options.Timeout) w.world =
      (WatchOutcome.completed, world1))
    (hlist : env.listPods s.options.Namespace (jobSelector s.jobName) world1 =
      (Except.ok pods, world2))
    (hlogs : podLogs env s.options.Namespace pods world2 = some logs) :
    (Run env o (St.start world)).stdout = logs.getLast?.getD "" ∧
      logs.length = pods.length ∧
      (pods = [] → (Run env o (St.start world)).stdout = "") ∧
      (∀ c, logs = [c] → (Run env o (St.start world)).stdout = c) := by
  obtain ⟨hrun, hout, _, _, _⟩ := reachWatch_spec env o (St.start world) s w hreach
  have hl := outputLoop_stdout env pods s
    (((w.record (Call.runController s.options.Namespace) Reply.done w.world).record
      (Call.select (timerDuration s.options.Timeout)) (Reply.woke WatchOutcome.completed)
      world1).record (Call.listPods s.options.Namespace (jobSelector s.jobName))
      (Reply.podList pods) world2) logs (by simpa using hlogs)
  have hstd : (Run env o (St.start world)).stdout = logs.getLast?.getD "" := by
    show (run env (newSession o) (St.start world)).2.1.stdout = _
    rw [hrun, watch_eq, deleteStuff_session, watchSelect_completed env s w hrace,
      output_listed env s _ (by simpa using hlist), hl.1, hout]
  refine ⟨hstd, hl.2.2, ?_, ?_⟩
  · intro hp
    subst hp
    have h0 : logs = [] := List.length_eq_zero.mp hl.2.2
    rw [hstd, h0]
    rfl
  · intro c hc
    rw [hstd, hc]
    rfl

theorem Run_stdout_is_last_pod_log_witness :
    reachWatch happy.env echoOptions (St.start ()) = some (happySession, happyEntry) ∧
    ((Run happy.env echoOptions (St.start ())).stdout = ["first\n", "hi\n"].getLast?.getD "" ∧
      ["first\n", "hi\n"].length = happy.pods.length ∧
      (happy.pods = [] → (Run happy.env echoOptions (St.start ())).stdout = "") ∧
      (∀ c, ["first\n", "hi\n"] = [c] →
        (Run happy.env echoOptions (St.start ())).stdout = c)) :=
  ⟨by rfl,
   Run_stdout_is_last_pod_log happy.env echoOptions () happySession happyEntry () ()
     happy.pods ["first\n", "hi\n"] (by rfl) (by rfl) (by rfl) (by rfl)⟩

/-- C4: with cleanup enabled, `deleteStuff` issues its calls in the fixed
order (the job, the pod listing under `job-name=<jobName>`, each listed pod in
list order, then the namespace only if it is owned): the calls it issues are
an initial part of that plan, nothing is issued after a call that fails and
the error of that call is what it returns, it returns `nil` exactly when every
issued call succeeded, and the whole plan is then issued. -/
theorem deleteStuff_fixed_order_fail_fast (env : Env σ) (s : s1) (w : St σ)
    (hc : s.options.Cleanup = true) :
    ∃ evs, (deleteStuff env s w).2.2.trace = w.trace ++ evs ∧
      (∃ rest, evs.map Event.call ++ rest =
        cleanupPlan s.options.Namespace s.jobName (listedPods evs) s.createdNamespace) ∧
      (∀ pre ev post e, evs = pre ++ ev :: post → ev.reply = Reply.failed e →
        post = [] ∧ (deleteStuff env s w).1 = some e) ∧
      ((deleteStuff env s w).1 = none ↔ ∀ ev ∈ evs, ∀ e, ev.reply ≠ Reply.failed e) ∧
      ((deleteStuff env s w).1 = none →
        evs.map Event.call =
          cleanupPlan s.options.Namespace s.jobName (listedPods evs) s.createdNamespace) := by
  obtain ⟨evs, h1, h2, h3, h4⟩ := deleteStuff_spec env s w hc
  exact ⟨evs, h1, h3, h2.1, h2.2, h4⟩

theorem deleteStuff_fixed_order_fail_fast_witness :
    happySession.options.Cleanup = true ∧
    ∃ evs, (deleteStuff happy.env happySession happyEntry).2.2.trace =
        happyEntry.trace ++ evs ∧
      (∃ rest, evs.map Event.call ++ rest =
        cleanupPlan happySession.options.Namespace happySession.jobName (listedPods evs)
          happySession.createdNamespace) ∧
      (∀ pre ev post e, evs = pre ++ ev :: post → ev.reply = Reply.failed e →
        post = [] ∧ (deleteStuff happy.env happySession happyEntry).1 = some e) ∧
      ((deleteStuff happy.env happySession happyEntry).1 = none ↔
        ∀ ev ∈ evs, ∀ e, ev.reply ≠ Reply.failed e) ∧
      ((deleteStuff happy.env happySession happyEntry).1 = none →
        evs.map Event.call =
          cleanupPlan happySession.options.Namespace happySession.jobName (listedPods evs)
            happySession.createdNamespace) :=
  ⟨by rfl, deleteStuff_fixed_order_fail_fast happy.env happySession happyEntry (by rfl)⟩

theorem Run_eq_cleanup (env : Env σ) (o : Options) (w : St σ) (s : s1) (w1 : St σ)
    (h : reachWatch env o w = some (s, w1)) :
    (Run env o w).err = (deleteStuff env (watchSelect env s w1).1 (watchSelect env s w1).2).1 ∧
    (Run env o w).st = (deleteStuff env (watchSelect env s w1).1 (watchSelect env s w1).2).2.2 ∧
    (Run env o w).stdout = (watchSelect env s w1).1.stdout ∧
    (Run env o w).stderr = "" := by
  obtain ⟨hrun, _, herr, _, _⟩ := reachWatch_spec env o w s w1 h
  have h1 : (Run env o w).err = (run env (newSession o) w).1 := rfl
  have h2 : (Run env o w).st = (run env (newSession o) w).2.2 := rfl
  have h3 : (Run env o w).stdout = (run env (newSession o) w).2.1.stdout := rfl
  have h4 : (Run env o w).stderr = (run env (newSession o) w).2.1.stderr := rfl
  rw [h1, h2, h3, h4, hrun, watch_eq, deleteStuff_session]
  exact ⟨rfl, rfl, rfl, (watchSelect_frame env s w1).2.2.2.trans herr⟩

/-- C5 as stated fails: on `jobDeleteFails` the run of `echoOptions` reaches
the cleanup with cleanup enabled and an owned namespace, the deletion of the
job fails, and the last call of the run is that deletion: no delete call for
the namespace is issued. -/
theorem owned_namespace_left_when_job_delete_fails :
    reachWatch jobDeleteFails.env echoOptions (St.start ()) = some (happySession, happyEntry) ∧
    happySession.options.Cleanup = true ∧ happySession.createdNamespace = true ∧
    (Run jobDeleteFails.env echoOptions (St.start ())).st.calls =
      [Call.createNamespace "fnkube-ns-abcde",
       Call.createJob "fnkube-ns-abcde" "fnkube-job-abcde" "fnkube-container-abcde" "alpine"
         ["echo", "hi"],
       Call.runController "fnkube-ns-abcde",
       Call.select 30000000000,
       Call.listPods "fnkube-ns-abcde" "job-name=fnkube-job-abcde",
       Call.getLogs "fnkube-ns-abcde" "pod-a",
       Call.getLogs "fnkube-ns-abcde" "pod-b",
       Call.deleteJob "fnkube-ns-abcde" "fnkube-job-abcde"] ∧
    Call.deleteNamespace "fnkube-ns-abcde" ∉
      (Run jobDeleteFails.env echoOptions (St.start ())).st.calls := by
  refine ⟨by rfl, by rfl, by rfl, by rfl, by decide⟩

/-- C5, amended: for every run that reaches the cleanup with cleanup enabled
and a namespace created by the session, whichever case of the `select` was
taken, a delete call for that namespace is issued if and only if every other
call of the cleanup (the job deletion, the pod listing, each pod deletion)
succeeded. -/
theorem owned_namespace_deleted_iff_steps_succeed (env : Env σ) (o : Options) (world : σ)
    (s : s1) (w : St σ)
    (hreach : reachWatch env o (St.start world) = some (s, w))
    (hc : s.options.Cleanup = true) (hown : s.createdNamespace = true) :
    ∃ evs, (Run env o (St.start world)).st.trace = (watchSelect env s w).2.trace ++ evs ∧
      ((∃ rep, { call := Call.deleteNamespace s.options.Namespace, reply := rep } ∈ evs) ↔
        ∀ ev ∈ evs, ev.call ≠ Call.deleteNamespace s.options.Namespace →
          ∀ e, ev.reply ≠ Reply.failed e) := by
  obtain ⟨_, hst, _, _⟩ := Run_eq_cleanup env o (St.start world) s w hreach
  obtain ⟨hopt, _, hflag, _⟩ := watchSelect_frame env s w
  obtain ⟨steps, nsPart, htr, hsteps, hcase⟩ := deleteStuff_shape env (watchSelect env s w).1
    (watchSelect env s w).2 (by rw [hopt]; exact hc)
  rw [hopt, hflag, hown] at hcase
  refine ⟨steps ++ nsPart, by rw [hst, htr, List.append_assoc], ?_⟩
  rcases hcase with ⟨⟨ev, hev, e, he⟩, hns⟩ | ⟨hok, hns⟩
  · subst hns
    constructor
    · rintro ⟨rep, hrep⟩
      have := hsteps _ (by simpa using hrep)
      simp [Call.isNamespaceWrite] at this
    · intro hall
      refine absurd he (hall ev (by simpa using hev) ?_ e)
      intro hcall
      have := hsteps ev hev
      rw [hcall] at this
      simp [Call.isNamespaceWrite] at this
  · subst hns
    constructor
    · intro _ ev hev hcall
      rcases List.mem_append.mp hev with h | h
      · exact hok ev h
      · simp at h
        rw [h] at hcall
        exact absurd rfl hcall
    · intro _
      exact ⟨Reply.ofError (deleteStuff env (watchSelect env s w).1 (watchSelect env s w).2).1,
        by simp⟩

theorem owned_namespace_deleted_iff_steps_succeed_witness :
    reachWatch happy.env echoOptions (St.start ()) = some (happySession, happyEntry) ∧
    happySession.options.Cleanup = true ∧ happySession.createdNamespace = true ∧
    ∃ evs, (Run happy.env echoOptions (St.start ())).st.trace =
        (watchSelect happy.env happySession happyEntry).2.trace ++ evs ∧
      ((∃ rep, { call := Call.deleteNamespace happySession.options.Namespace, reply := rep }
          ∈ evs) ↔
        ∀ ev ∈ evs, ev.call ≠ Call.deleteNamespace happySession.options.Namespace →
          ∀ e, ev.reply ≠ Reply.failed e) :=
  ⟨by rfl, by rfl, by rfl,
   owned_namespace_deleted_iff_steps_succeed happy.env echoOptions () happySession happyEntry
     (by rfl) (by rfl) (by rfl)⟩

theorem isCreateJob_not_other {c : Call} (h : c.isCreateJob = true) :
    c.isDelete = false ∧ c.isNamespaceWrite = false ∧ c.isWatchStep = false ∧
      ∀ n, c ≠ Call.getNamespace n := by
  cases c <;> simp_all [Call.isCreateJob, Call.isDelete, Call.isNamespaceWrite, Call.isWatchStep]

/-- The trace of a run up to the end of the wait holds no delete call. -/
theorem run_trace_before_cleanup (env : Env σ) (o : Options) (world : σ) :
    (reachWatch env o (St.start world) = none →
      ∀ ev ∈ (run env (newSession o) (St.start world)).2.2.trace, ev.call.isDelete = false) ∧
    (∀ s w, reachWatch env o (St.start world) = some (s, w) →
      ∀ ev ∈ (watchSelect env s w).2.trace, ev.call.isDelete = false) := by
  obtain ⟨sb, wb, hflag, _, _, _, _, htr, hcase⟩ := run_cases env o (St.start world)
  obtain ⟨nevs, hn1, hn2⟩ := validateNamespace_trace env sb wb hflag
  obtain ⟨jev, hj1, hj2⟩ := createJob_trace env (validateNamespace env sb wb).2.1
    (validateNamespace env sb wb).2.2
  have htr0 : wb.trace = [] := htr
  rw [hn1, htr0, List.nil_append] at hj2
  rcases hcase with ⟨e, hrun, hr⟩ | ⟨_, ⟨e, _, hrun, hr⟩ | ⟨_, ⟨e, _, hrun, hr⟩ | ⟨_, hrun, hr⟩⟩⟩
  · refine ⟨fun _ => ?_, fun s w h => by rw [hr] at h; cases h⟩
    rw [hrun]
    simp [htr0]
  · refine ⟨fun _ => ?_, fun s w h => by rw [hr] at h; cases h⟩
    rw [hrun, hn1, htr0]
    intro ev hev
    exact (hn2 ev (by simpa using hev)).1
  · refine ⟨fun _ => ?_, fun s w h => by rw [hr] at h; cases h⟩
    rw [hrun, hj2]
    intro ev hev
    rcases List.mem_append.mp hev with h | h
    · exact (hn2 ev h).1
    · rw [List.mem_singleton.mp h]
      exact (isCreateJob_not_other hj1).1
  · refine ⟨fun h => (by rw [hr] at h; cases h), fun s w h => ?_⟩
    rw [hr] at h
    simp only [Option.some.injEq, Prod.mk.injEq] at h
    obtain ⟨hs, hw⟩ := h
    obtain ⟨out, wevs, hw1, hw2⟩ := watchSelect_trace env s w
    rw [hw1, ← hw, hj2]
    intro ev hev
    rcases List.mem_append.mp hev with h | h
    · rcases List.mem_append.mp h with h | h
      · exact (hn2 ev h).1
      · rw [List.mem_singleton.mp h]
        exact (isCreateJob_not_other hj1).1
    · rcases List.mem_cons.mp h with h | h
      · subst h; rfl
      · rcases List.mem_cons.mp h with h | h
        · subst h; rfl
        · exact (isWatchStep_not_other (hw2 ev h)).1

/-- C7: with cleanup disabled, on either case of the `select`, the run issues
no delete call of any kind, and the cleanup stage issues no call at all (so no
pod listing for a deletion either) and returns `nil`: the run ends in the
state in which the wait ended, with a `nil` error. -/
theorem no_delete_when_cleanup_disabled (env : Env σ) (o : Options) (world : σ)
    (hc : o.Cleanup = false) :
    (∀ ev ∈ (Run env o (St.start world)).st.trace, ev.call.isDelete = false) ∧
    (∀ s w, reachWatch env o (St.start world) = some (s, w) →
      deleteStuff env (watchSelect env s w).1 (watchSelect env s w).2 =
        (none, (watchSelect env s w).1, (watchSelect env s w).2) ∧
      (Run env o (St.start world)).st.trace = (watchSelect env s w).2.trace ∧
      (Run env o (St.start world)).err = none) := by
  obtain ⟨hnone, hsome⟩ := run_trace_before_cleanup env o world
  have hdis : ∀ s w, reachWatch env o (St.start world) = some (s, w) →
      deleteStuff env (watchSelect env s w).1 (watchSelect env s w).2 =
        (none, (watchSelect env s w).1, (watchSelect env s w).2) := by
    intro s w h
    apply deleteStuff_disabled
    rw [(watchSelect_frame env s w).1, (reachWatch_spec env o _ s w h).2.2.2.1]
    exact hc
  constructor
  · rcases hr : reachWatch env o (St.start world) with _ | ⟨s, w⟩
    · exact hnone hr
    · rw [(Run_eq_cleanup env o _ s w hr).2.1, hdis s w hr]
      exact hsome s w hr
  · intro s w h
    refine ⟨hdis s w h, ?_, ?_⟩
    · rw [(Run_eq_cleanup env o _ s w h).2.1, hdis s w h]
    · rw [(Run_eq_cleanup env o _ s w h).1, hdis s w h]

theorem no_delete_when_cleanup_disabled_witness :
    debugOptions.Cleanup = false ∧
    ((∀ ev ∈ (Run happy.env debugOptions (St.start ())).st.trace, ev.call.isDelete = false) ∧
     (∀ s w, reachWatch happy.env debugOptions (St.start ()) = some (s, w) →
      deleteStuff happy.env (watchSelect happy.env s w).1 (watchSelect happy.env s w).2 =
        (none, (watchSelect happy.env s w).1, (watchSelect happy.env s w).2) ∧
      (Run happy.env debugOptions (St.start ())).st.trace =
        (watchSelect happy.env s w).2.trace ∧
      (Run happy.env debugOptions (St.start ())).err = none)) :=
  ⟨by rfl, no_delete_when_cleanup_disabled happy.env debugOptions () (by rfl)⟩

theorem deleteStuff_grows (env : Env σ) (s : s1) (w : St σ) :
    ∃ evs, (deleteStuff env s w).2.2.trace = w.trace ++ evs ∧
      (s.createdNamespace = false → ∀ ev ∈ evs, ev.call.isNamespaceWrite = false) := by
  cases hc : s.options.Cleanup with
  | false =>
    rw [deleteStuff_disabled env s w hc]
    exact ⟨[], by simp, by simp⟩
  | true =>
    obtain ⟨steps, nsPart, htr, hsteps, hcase⟩ := deleteStuff_shape env s w hc
    refine ⟨steps ++ nsPart, by rw [htr, List.append_assoc], ?_⟩
    intro hflag ev hev
    have hns : nsPart = [] := by
      rcases hcase with ⟨_, h⟩ | ⟨_, h⟩
      · exact h
      · rw [h, hflag]
        rfl
    rw [hns, List.append_nil] at hev
    exact hsteps ev hev

theorem watch_grows (env : Env σ) (s : s1) (w : St σ) :
    ∃ evs, (watch env s w).2.2.trace = w.trace ++ evs ∧
      (watch env s w).2.1.createdNamespace = s.createdNamespace ∧
      (s.createdNamespace = false → ∀ ev ∈ evs, ev.call.isNamespaceWrite = false) := by
  obtain ⟨out, wevs, hw1, hw2⟩ := watchSelect_trace env s w
  obtain ⟨_, _, hflag, _⟩ := watchSelect_frame env s w
  obtain ⟨devs, hd1, hd2⟩ := deleteStuff_grows env (watchSelect env s w).1
    (watchSelect env s w).2
  refine ⟨{ call := Call.runController s.options.Namespace, reply := Reply.done } ::
    { call := Call.select (timerDuration s.options.Timeout), reply := Reply.woke out } ::
    wevs ++ devs, ?_, ?_, ?_⟩
  · rw [watch_eq, hd1, hw1]
    simp
  · rw [watch_eq, deleteStuff_session, hflag]
  · intro h0 ev hev
    rcases List.mem_append.mp hev with h | h
    · rcases List.mem_cons.mp h with h | h
      · subst h; rfl
      · rcases List.mem_cons.mp h with h | h
        · subst h; rfl
        · exact (isWatchStep_not_other (hw2 ev h)).2.1
    · exact hd2 (by rw [hflag]; exact h0) ev h

/-- C6 as stated fails: on `lookupForbidden` the namespace `myproject` exists
on the cluster and the request names it, but its lookup fails. The session
takes the ownership flag, issues a create call for `myproject`, and the run
aborts with the error of that call. -/
theorem existing_namespace_created_when_lookup_fails :
    "myproject" ∈ (St.start ["myproject"]).world ∧
    projectOptions.Namespace = "myproject" ∧
    (run lookupForbidden (newSession projectOptions)
      (St.start ["myproject"])).2.1.createdNamespace = true ∧
    (run lookupForbidden (newSession projectOptions) (St.start ["myproject"])).2.2.trace =
      [{ call := Call.getNamespace "myproject",
         reply := Reply.failed "namespaces myproject is forbidden" },
       { call := Call.createNamespace "myproject",
         reply := Reply.failed "namespaces myproject already exists" }] ∧
    (run lookupForbidden (newSession projectOptions) (St.start ["myproject"])).1 =
      some "Error creating namespace myproject: namespaces myproject already exists" ∧
    (run lookupForbidden (newSession projectOptions) (St.start ["myproject"])).2.2.world =
      ["myproject"] := by
  refine ⟨by decide, by rfl, by rfl, by rfl, by rfl, by rfl⟩

/-- C6, amended: when the request names a namespace and the lookup of that
name does not fail (the namespace exists and `Get` returns it), the ownership
flag of the session is `false` when the run ends and the run issues no create
call and no delete call for a namespace, whatever the outcome of the run and
the cleanup flag. -/
theorem existing_namespace_never_created_nor_deleted (env : Env σ) (o : Options)
    (world : σ) (hname : o.Namespace.length ≠ 0)
    (hfound : ∀ ev ∈ (run env (newSession o) (St.start world)).2.2.trace,
      ev.call = Call.getNamespace o.Namespace → ev.reply = Reply.done) :
    (run env (newSession o) (St.start world)).2.1.createdNamespace = false ∧
    ∀ ev ∈ (run env (newSession o) (St.start world)).2.2.trace,
      ev.call.isNamespaceWrite = false := by
  obtain ⟨sb, wb, hflag, hns, _, _, _, htr, hcase⟩ := run_cases env o (St.start world)
  have htr0 : wb.trace = [] := htr
  rcases hcase with ⟨e, hrun, _⟩ | ⟨_, hcase⟩
  · rw [hrun]
    exact ⟨hflag, by simp [htr0]⟩
  have hlen : sb.options.Namespace.length ≠ 0 := by rw [hns]; exact hname
  obtain ⟨jev, hj1, hj2⟩ := createJob_trace env (validateNamespace env sb wb).2.1
    (validateNamespace env sb wb).2.2
  have hjs := createJob_session env (validateNamespace env sb wb).2.1
    (validateNamespace env sb wb).2.2
  obtain ⟨wevs, hw1, hw2, hw3⟩ := watch_grows env
    (createJob env (validateNamespace env sb wb).2.1 (validateNamespace env sb wb).2.2).2.1
    (createJob env (validateNamespace env sb wb).2.1 (validateNamespace env sb wb).2.2).2.2
  rcases validateNamespace_cases env sb wb hflag with ⟨h, _⟩ | ⟨_, e0, _, hv⟩ | ⟨_, _, hv⟩
  · exact absurd h hlen
  · exfalso
    have hmem : ({ call := Call.getNamespace o.Namespace, reply := Reply.failed e0 } : Event) ∈
        (validateNamespace env sb wb).2.2.trace := by
      rw [hv, hns]
      simp
    have hfinal : ({ call := Call.getNamespace o.Namespace, reply := Reply.failed e0 } : Event) ∈
        (run env (newSession o) (St.start world)).2.2.trace := by
      rcases hcase with ⟨e, _, hrun, _⟩ | ⟨_, ⟨e, _, hrun, _⟩ | ⟨_, hrun, _⟩⟩
      · rw [hrun]; exact hmem
      · rw [hrun, hj2]
        exact List.mem_append_left _ hmem
      · rw [hrun, hw1, hj2]
        exact List.mem_append_left _ (List.mem_append_left _ hmem)
    have := hfound _ hfinal rfl
    simp at this
  · rw [hv] at hj2 hjs hw1 hw2 hw3 hcase
    simp only [St.record_trace, htr0, List.nil_append] at hj2
    have hjflag : (createJob env sb (wb.record (Call.getNamespace sb.options.Namespace)
        Reply.done (env.getNamespace sb.options.Namespace wb.world).2)).2.1.createdNamespace
        = false := by
      rw [hjs]
      exact hflag
    rcases hcase with ⟨e, he, _, _⟩ | ⟨_, ⟨e, _, hrun, _⟩ | ⟨_, hrun, _⟩⟩
    · simp at he
    · rw [hrun]
      refine ⟨hjflag, ?_⟩
      rw [hj2]
      intro ev hev
      simp only [List.mem_append, List.mem_singleton, List.mem_cons, List.not_mem_nil,
        or_false] at hev
      rcases hev with h | h
      · subst h; rfl
      · subst h; exact (isCreateJob_not_other hj1).2.1
    · rw [hrun]
      refine ⟨hw2.trans hjflag, ?_⟩
      rw [hw1, hj2]
      intro ev hev
      rcases List.mem_append.mp hev with h | h
      · simp only [List.mem_append, List.mem_singleton, List.mem_cons, List.not_mem_nil,
          or_false] at h
        rcases h with h | h
        · subst h; rfl
        · subst h; exact (isCreateJob_not_other hj1).2.1
      · exact hw3 hjflag ev h

theorem existing_namespace_never_created_nor_deleted_witness :
    projectOptions.Namespace.length ≠ 0 ∧
    (∀ ev ∈ (run happy.env (newSession projectOptions) (St.start ())).2.2.trace,
      ev.call = Call.getNamespace projectOptions.Namespace → ev.reply = Reply.done) ∧
    ((run happy.env (newSession projectOptions) (St.start ())).2.1.createdNamespace = false ∧
     ∀ ev ∈ (run happy.env (newSession projectOptions) (St.start ())).2.2.trace,
      ev.call.isNamespaceWrite = false) :=
  ⟨by decide, by decide,
   existing_namespace_never_created_nor_deleted happy.env projectOptions ()
     (by decide) (by decide)⟩

/-- What the namespace stage does on a session that does not own a namespace
yet, on the events it appends to the trace. -/
theorem validateNamespace_resolution (env : Env σ) (s : s1) (w : St σ)
    (h0 : s.createdNamespace = false) :
    ∃ evs, (validateNamespace env s w).2.2.trace = w.trace ++ evs ∧
      ((validateNamespace env s w).2.1.createdNamespace = true ↔
        (s.options.Namespace.length = 0 ∨
          (env.getNamespace s.options.Namespace w.world).1 ≠ none)) ∧
      (s.options.Namespace.length = 0 →
        (validateNamespace env s w).2.1.options.Namespace =
          "fnkube-ns-" ++ (env.RandomString 5 w.world).1) ∧
      (s.options.Namespace.length ≠ 0 →
        (validateNamespace env s w).2.1.options.Namespace = s.options.Namespace) ∧
      ((∃ rep, { call := Call.createNamespace (validateNamespace env s w).2.1.options.Namespace,
                 reply := rep } ∈ evs) ↔
        (validateNamespace env s w).2.1.createdNamespace = true) ∧
      (∀ ev ∈ evs, ∀ n, ev.call = Call.createNamespace n →
        n = (validateNamespace env s w).2.1.options.Namespace) ∧
      (∀ n e, { call := Call.createNamespace n, reply := Reply.failed e } ∈ evs →
        (validateNamespace env s w).1 = some ("Error creating namespace " ++ n ++ ": " ++ e)) ∧
      ((validateNamespace env s w).1 ≠ none →
        ∃ e, { call := Call.createNamespace (validateNamespace env s w).2.1.options.Namespace,
               reply := Reply.failed e } ∈ evs) := by
  have hpre : fnkubePrefix ++ "-ns-" = "fnkube-ns-" := by decide
  rcases validateNamespace_cases env s w h0 with ⟨hl, h⟩ | ⟨hl, e0, hg, h⟩ | ⟨hl, hg, h⟩
  · rw [h]
    refine ⟨[_], rfl, by simp [hl], ?_, fun hn => absurd hl hn, ?_, ?_, ?_, ?_⟩
    · intro _
      show fnkubePrefix ++ "-ns-" ++ _ = _
      rw [hpre]
    · simp
    · simp
    · intro n e hmem
      cases hc : (env.createNamespace (fnkubePrefix ++ "-ns-" ++ (env.RandomString 5 w.world).1)
          (env.RandomString 5 w.world).2).1 with
      | none => simp [hc, Reply.ofError] at hmem
      | some e1 =>
        simp [hc, Reply.ofError] at hmem
        simp [hmem.1, hmem.2]
    · intro hne
      cases hc : (env.createNamespace (fnkubePrefix ++ "-ns-" ++ (env.RandomString 5 w.world).1)
          (env.RandomString 5 w.world).2).1 with
      | none => simp [hc] at hne
      | some e1 => exact ⟨e1, by simp [Reply.ofError]⟩
  · rw [h]
    refine ⟨[{ call := Call.getNamespace s.options.Namespace, reply := Reply.failed e0 },
        { call := Call.createNamespace s.options.Namespace,
          reply := Reply.ofError (env.createNamespace s.options.Namespace
            (env.getNamespace s.options.Namespace w.world).2).1 }],
      by simp, by simp [hg], fun hn => absurd hn hl, fun _ => rfl, ?_, ?_, ?_, ?_⟩
    · simp
    · simp
    · intro n e hmem
      cases hc : (env.createNamespace s.options.Namespace
          (env.getNamespace s.options.Namespace w.world).2).1 with
      | none => simp [hc, Reply.ofError] at hmem
      | some e1 =>
        simp [hc, Reply.ofError] at hmem
        simp [hmem.1, hmem.2]
    · intro hne
      cases hc : (env.createNamespace s.options.Namespace
          (env.getNamespace s.options.Namespace w.world).2).1 with
      | none => simp [hc] at hne
      | some e1 => exact ⟨e1, by simp [Reply.ofError]⟩
  · rw [h]
    refine ⟨[_], rfl, by simp [hg, h0, hl], fun hn => absurd hn hl, fun _ => rfl, ?_, ?_, ?_, ?_⟩
    · simp [h0]
    · simp
    · simp
    · simp

theorem watch_no_create (env : Env σ) (s : s1) (w : St σ) :
    ∃ evs, (watch env s w).2.2.trace = w.trace ++ evs ∧
      ∀ ev ∈ evs, ∀ n, ev.call ≠ Call.createNamespace n := by
  obtain ⟨out, wevs, hw1, hw2⟩ := watchSelect_trace env s w
  have hdel : ∃ devs, (deleteStuff env (watchSelect env s w).1 (watchSelect env s w).2).2.2.trace
      = (watchSelect env s w).2.trace ++ devs ∧
      ∀ ev ∈ devs, ∀ n, ev.call ≠ Call.createNamespace n := by
    cases hc : (watchSelect env s w).1.options.Cleanup with
    | false =>
      rw [deleteStuff_disabled env _ _ hc]
      exact ⟨[], by simp, by simp⟩
    | true =>
      obtain ⟨steps, nsPart, htr, hsteps, hcase⟩ := deleteStuff_shape env _ _ hc
      refine ⟨steps ++ nsPart, by rw [htr, List.append_assoc], ?_⟩
      intro ev hev n hcall
      rcases List.mem_append.mp hev with h | h
      · have := hsteps ev h
        rw [hcall] at this
        simp [Call.isNamespaceWrite] at this
      · rcases hcase with ⟨_, hns⟩ | ⟨_, hns⟩
        · rw [hns] at h
          simp at h
        · rw [hns] at h
          split at h
          · rw [List.mem_singleton.mp h] at hcall
            simp at hcall
          · simp at h
  obtain ⟨devs, hd1, hd2⟩ := hdel
  refine ⟨{ call := Call.runController s.options.Namespace, reply := Reply.done } ::
    { call := Call.select (timerDuration s.options.Timeout), reply := Reply.woke out } ::
    wevs ++ devs, ?_, ?_⟩
  · rw [watch_eq, hd1, hw1]
    simp
  · intro ev hev n hcall
    rcases List.mem_append.mp hev with h | h
    · rcases List.mem_cons.mp h with h | h
      · subst h; simp at hcall
      · rcases List.mem_cons.mp h with h | h
        · subst h; simp at hcall
        · have := (isWatchStep_not_other (hw2 ev h)).2.1
          rw [hcall] at this
          simp [Call.isNamespaceWrite] at this
    · exact hd2 ev h n hcall

/-- A run in which the creation of the namespace fails returns the error
built from the name and the cause and submits no job. -/
theorem run_aborts_on_failed_create (env : Env σ) (o : Options) (world : σ)
    (n e : String)
    (hmem : { call := Call.createNamespace n, reply := Reply.failed e } ∈
      (Run env o (St.start world)).st.trace) :
    (Run env o (St.start world)).err =
        some ("Error creating namespace " ++ n ++ ": " ++ e) ∧
      ∀ ev ∈ (Run env o (St.start world)).st.trace, ev.call.isCreateJob = false := by
  have hst : (Run env o (St.start world)).st = (run env (newSession o) (St.start world)).2.2 :=
    rfl
  have herr : (Run env o (St.start world)).err = (run env (newSession o) (St.start world)).1 :=
    rfl
  rw [hst] at hmem
  rw [hst, herr]
  obtain ⟨sb, wb, hflag, _, _, _, _, htr, hcase⟩ := run_cases env o (St.start world)
  have htr0 : wb.trace = [] := htr
  obtain ⟨evs, hv1, _, _, _, _, _, hv7, _⟩ := validateNamespace_resolution env sb wb hflag
  obtain ⟨evs1, ht1, ht2⟩ := validateNamespace_trace env sb wb hflag
  have hsame : evs1 = evs := List.append_cancel_left (ht1.symm.trans hv1)
  subst hsame
  rw [htr0, List.nil_append] at hv1
  obtain ⟨jev, hj1, hj2⟩ := createJob_trace env (validateNamespace env sb wb).2.1
    (validateNamespace env sb wb).2.2
  obtain ⟨wevs, hw1, hw2⟩ := watch_no_create env
    (createJob env (validateNamespace env sb wb).2.1 (validateNamespace env sb wb).2.2).2.1
    (createJob env (validateNamespace env sb wb).2.1 (validateNamespace env sb wb).2.2).2.2
  rcases hcase with ⟨e1, hrun, _⟩ | ⟨_, ⟨e1, _, hrun, _⟩ | ⟨hnone, ⟨e1, _, hrun, _⟩ | ⟨_, hrun, _⟩⟩⟩
  · rw [hrun] at hmem
    simp [htr0] at hmem
  · rw [hrun] at hmem ⊢
    rw [hv1] at hmem ⊢
    exact ⟨hv7 n e hmem, fun ev hev => (ht2 ev hev).2.1⟩
  · exfalso
    rw [hrun, hj2, hv1] at hmem
    rcases List.mem_append.mp hmem with h | h
    · rw [hv7 n e h] at hnone
      simp at hnone
    · rw [← List.mem_singleton.mp h] at hj1
      simp [Call.isCreateJob] at hj1
  · exfalso
    rw [hrun, hw1, hj2, hv1] at hmem
    rcases List.mem_append.mp hmem with h | h
    · rcases List.mem_append.mp h with h | h
      · rw [hv7 n e h] at hnone
        simp at hnone
      · rw [← List.mem_singleton.mp h] at hj1
        simp [Call.isCreateJob] at hj1
    · exact hw2 _ h n rfl

/-- The error the namespace stage returns, from the replies of the cluster. -/
theorem validateNamespace_returns (env : Env σ) (s : s1) (w : St σ)
    (h0 : s.createdNamespace = false) :
    (s.options.Namespace.length = 0 →
      (validateNamespace env s w).1 =
        (env.createNamespace ("fnkube-ns-" ++ (env.RandomString 5 w.world).1)
          (env.RandomString 5 w.world).2).1.map
          (fun e => "Error creating namespace " ++
            ("fnkube-ns-" ++ (env.RandomString 5 w.world).1) ++ ": " ++ e)) ∧
    (s.options.Namespace.length ≠ 0 →
      (env.getNamespace s.options.Namespace w.world).1 ≠ none →
      (validateNamespace env s w).1 =
        (env.createNamespace s.options.Namespace
          (env.getNamespace s.options.Namespace w.world).2).1.map
          (fun e => "Error creating namespace " ++ s.options.Namespace ++ ": " ++ e)) ∧
    (s.options.Namespace.length ≠ 0 →
      (env.getNamespace s.options.Namespace w.world).1 = none →
      (validateNamespace env s w).1 = none) := by
  have hpre : fnkubePrefix ++ "-ns-" = "fnkube-ns-" := by decide
  rcases validateNamespace_cases env s w h0 with ⟨hl, h⟩ | ⟨hl, e0, hg, h⟩ | ⟨hl, hg, h⟩
  · refine ⟨fun _ => ?_, fun hn => absurd hl hn, fun hn => absurd hl hn⟩
    rw [h, ← hpre]
  · refine ⟨fun hn => absurd hn hl, fun _ _ => ?_, fun _ hn => ?_⟩
    · rw [h]
    · rw [hg] at hn
      simp at hn
  · refine ⟨fun hn => absurd hn hl, fun _ hn => absurd hg hn, fun _ _ => ?_⟩
    rw [h]

theorem reachNamespace_spec (env : Env σ) (o : Options) (w : St σ) (sb : s1) (wb : St σ)
    (h : reachNamespace env o w = some (sb, wb)) :
    sb.createdNamespace = false ∧ sb.options.Namespace = o.Namespace ∧
      wb.trace = w.trace ∧
      ∀ e, (validateNamespace env sb wb).1 = some e →
        run env (newSession o) w = validateNamespace env sb wb := by
  have hf := validateConfig_frame env (newSession o) w
  have ht := validateConfig_trace env (newSession o) w
  rcases ha : validateConfig env (newSession o) w with ⟨_ | e, sa, wa⟩
  swap
  · simp [reachNamespace, ha] at h
  rw [ha] at hf ht
  have hcs := createClient_session env sa wa
  have hct := createClient_trace env sa wa
  rcases hb : createClient env sa wa with ⟨_ | e, sc, wc⟩
  swap
  · simp [reachNamespace, ha, hb] at h
  rw [hb] at hcs hct
  simp only at hcs hct
  subst hcs
  simp only [reachNamespace, ha, hb, Option.some.injEq, Prod.mk.injEq] at h
  obtain ⟨hs, hw⟩ := h
  subst hs
  subst hw
  refine ⟨hf.1, hf.2.2.2.2.1, hct.trans ht, ?_⟩
  intro e he
  rcases hc : validateNamespace env sc wc with ⟨_ | e1, sd, wd⟩
  · rw [hc] at he
    simp at he
  · simp [run, ha, hb, hc]

/-- A run that reaches the namespace stage and whose namespace stage fails
returns the error of that stage right after it, without a job submission. -/
theorem run_aborts_after_namespace_error (env : Env σ) (o : Options) (world : σ)
    (sb : s1) (wb : St σ)
    (hreach : reachNamespace env o (St.start world) = some (sb, wb)) (e : String)
    (he : (validateNamespace env sb wb).1 = some e) :
    (Run env o (St.start world)).err = some e ∧
      (Run env o (St.start world)).st.trace = (validateNamespace env sb wb).2.2.trace ∧
      ∀ ev ∈ (Run env o (St.start world)).st.trace, ev.call.isCreateJob = false := by
  obtain ⟨hflag, _, htr, hrun⟩ := reachNamespace_spec env o (St.start world) sb wb hreach
  have hst : (Run env o (St.start world)).st = (run env (newSession o) (St.start world)).2.2 :=
    rfl
  have herr : (Run env o (St.start world)).err = (run env (newSession o) (St.start world)).1 :=
    rfl
  rw [hst, herr, hrun e he]
  refine ⟨he, rfl, ?_⟩
  obtain ⟨evs, ht1, ht2⟩ := validateNamespace_trace env sb wb hflag
  have htr0 : wb.trace = [] := htr
  rw [ht1, htr0, List.nil_append]
  exact fun ev hev => (ht2 ev hev).2.1

/-- C8: on a session that owns no namespace yet, `validateNamespace` ends with
the ownership flag true if and only if the name was empty (the resolved name
is then `fnkube-ns-` followed by the random suffix) or the lookup of the given
name failed with any error; a create call is issued, for the resolved name, if
and only if the flag is true; what it returns is then the reply of the cluster
to that call, `nil` or the error `Error creating namespace <name>: <cause>`,
and it returns `nil` when the name is found; and a run that reaches the
namespace stage and in which the create fails returns that error right after
the create call and submits no job. -/
theorem validateNamespace_resolves_and_creates (env : Env σ) (s : s1) (w : St σ)
    (o : Options) (world : σ) (h0 : s.createdNamespace = false) :
    (∃ evs, (validateNamespace env s w).2.2.trace = w.trace ++ evs ∧
      ((validateNamespace env s w).2.1.createdNamespace = true ↔
        (s.options.Namespace.length = 0 ∨
          (env.getNamespace s.options.Namespace w.world).1 ≠ none)) ∧
      (s.options.Namespace.length = 0 →
        (validateNamespace env s w).2.1.options.Namespace =
          "fnkube-ns-" ++ (env.RandomString 5 w.world).1) ∧
      (s.options.Namespace.length ≠ 0 →
        (validateNamespace env s w).2.1.options.Namespace = s.options.Namespace) ∧
      ((∃ rep, { call := Call.createNamespace (validateNamespace env s w).2.1.options.Namespace,
                 reply := rep } ∈ evs) ↔
        (validateNamespace env s w).2.1.createdNamespace = true) ∧
      (∀ ev ∈ evs, ∀ n, ev.call = Call.createNamespace n →
        n = (validateNamespace env s w).2.1.options.Namespace) ∧
      (∀ n e, { call := Call.createNamespace n, reply := Reply.failed e } ∈ evs →
        (validateNamespace env s w).1 = some ("Error creating namespace " ++ n ++ ": " ++ e)) ∧
      ((validateNamespace env s w).1 ≠ none →
        ∃ e, { call := Call.createNamespace (validateNamespace env s w).2.1.options.Namespace,
               reply := Reply.failed e } ∈ evs)) ∧
    (∀ n e, { call := Call.createNamespace n, reply := Reply.failed e } ∈
        (Run env o (St.start world)).st.trace →
      (Run env o (St.start world)).err =
          some ("Error creating namespace " ++ n ++ ": " ++ e) ∧
        ∀ ev ∈ (Run env o (St.start world)).st.trace, ev.call.isCreateJob = false) ∧
    ((s.options.Namespace.length = 0 →
      (validateNamespace env s w).1 =
        (env.createNamespace ("fnkube-ns-" ++ (env.RandomString 5 w.world).1)
          (env.RandomString 5 w.world).2).1.map
          (fun e => "Error creating namespace " ++
            ("fnkube-ns-" ++ (env.RandomString 5 w.world).1) ++ ": " ++ e)) ∧
     (s.options.Namespace.length ≠ 0 →
      (env.getNamespace s.options.Namespace w.world).1 ≠ none →
      (validateNamespace env s w).1 =
        (env.createNamespace s.options.Namespace
          (env.getNamespace s.options.Namespace w.world).2).1.map
          (fun e => "Error creating namespace " ++ s.options.Namespace ++ ": " ++ e)) ∧
     (s.options.Namespace.length ≠ 0 →
      (env.getNamespace s.options.Namespace w.world).1 = none →
      (validateNamespace env s w).1 = none)) ∧
    (∀ sb wb, reachNamespace env o (St.start world) = some (sb, wb) →
      (sb.createdNamespace = false ∧ sb.options.Namespace = o.Namespace ∧ wb.trace = []) ∧
      (∀ e, (validateNamespace env sb wb).1 = some e →
        (Run env o (St.start world)).err = some e ∧
        (Run env o (St.start world)).st.trace = (validateNamespace env sb wb).2.2.trace ∧
        ∀ ev ∈ (Run env o (St.start world)).st.trace, ev.call.isCreateJob = false) ∧
      (o.Namespace.length = 0 → ∀ cause,
        (env.createNamespace ("fnkube-ns-" ++ (env.RandomString 5 wb.world).1)
          (env.RandomString 5 wb.world).2).1 = some cause →
        (Run env o (St.start world)).err =
          some ("Error creating namespace " ++
            ("fnkube-ns-" ++ (env.RandomString 5 wb.world).1) ++ ": " ++ cause) ∧
        ∀ ev ∈ (Run env o (St.start world)).st.trace, ev.call.isCreateJob = false) ∧
      (o.Namespace.length ≠ 0 → ∀ cause,
        (env.getNamespace o.Namespace wb.world).1 ≠ none →
        (env.createNamespace o.Namespace (env.getNamespace o.Namespace wb.world).2).1 =
          some cause →
        (Run env o (St.start world)).err =
          some ("Error creating namespace " ++ o.Namespace ++ ": " ++ cause) ∧
        ∀ ev ∈ (Run env o (St.start world)).st.trace, ev.call.isCreateJob = false)) := by
  refine ⟨validateNamespace_resolution env s w h0,
    fun n e hmem => run_aborts_on_failed_create env o world n e hmem,
    validateNamespace_returns env s w h0, ?_⟩
  intro sb wb hreach
  obtain ⟨hflag, hns, htr, _⟩ := reachNamespace_spec env o (St.start world) sb wb hreach
  obtain ⟨r1, r2, _⟩ := validateNamespace_returns env sb wb hflag
  refine ⟨⟨hflag, hns, htr⟩,
    fun e he => run_aborts_after_namespace_error env o world sb wb hreach e he, ?_, ?_⟩
  · intro hl cause hc
    have he := r1 (by rw [hns]; exact hl)
    rw [hc] at he
    have := run_aborts_after_namespace_error env o world sb wb hreach _ he
    exact ⟨this.1, this.2.2⟩
  · intro hl cause hg hc
    rw [← hns] at hl hg hc ⊢
    have he := r2 hl hg
    rw [hc] at he
    have := run_aborts_after_namespace_error env o world sb wb hreach _ he
    exact ⟨this.1, this.2.2⟩

theorem validateNamespace_resolves_and_creates_witness :
    (newSession echoOptions).createdNamespace = false ∧
    reachNamespace createForbidden.env echoOptions (St.start ()) =
      some ({ newSession echoOptions with
              options := { echoOptions with ConfigFile := "/home/user/.kube/config" } },
            St.start ()) ∧
    (createForbidden.env.createNamespace "fnkube-ns-abcde" ()).1 =
      some "namespaces is forbidden" ∧
    (validateNamespace createForbidden.env (newSession echoOptions) (St.start ())).1 =
      some "Error creating namespace fnkube-ns-abcde: namespaces is forbidden" ∧
    ((validateNamespace createForbidden.env (newSession echoOptions)
        (St.start ())).2.1.createdNamespace = true ↔
      ((newSession echoOptions).options.Namespace.length = 0 ∨
        (createForbidden.env.getNamespace (newSession echoOptions).options.Namespace
          (St.start ()).world).1 ≠ none)) ∧
    ((Run createForbidden.env echoOptions (St.start ())).err =
        some "Error creating namespace fnkube-ns-abcde: namespaces is forbidden" ∧
      ∀ ev ∈ (Run createForbidden.env echoOptions (St.start ())).st.trace,
        ev.call.isCreateJob = false) ∧
    (Run createForbidden.env echoOptions (St.start ())).st.trace =
      [{ call := Call.createNamespace "fnkube-ns-abcde",
         reply := Reply.failed "namespaces is forbidden" }] :=
  ⟨by rfl, by rfl, by rfl,
   ((validateNamespace_resolves_and_creates createForbidden.env (newSession echoOptions)
      (St.start ()) echoOptions () (by rfl)).2.2.1.1 (by rfl)).trans (by rfl),
   (validateNamespace_resolves_and_creates createForbidden.env (newSession echoOptions)
      (St.start ()) echoOptions () (by rfl)).1.choose_spec.2.1,
   ((validateNamespace_resolves_and_creates createForbidden.env (newSession echoOptions)
      (St.start ()) echoOptions () (by rfl)).2.2.2
      { newSession echoOptions with
        options := { echoOptions with ConfigFile := "/home/user/.kube/config" } }
      (St.start ()) (by rfl)).2.2.1 (by rfl) "namespaces is forbidden" (by rfl),
   by rfl⟩

/-! ## The deadline -/

/-- C9 as stated fails: for the request `foreverOptions`, whose timeout is 0,
`validateConfig` substitutes 2147483647, the timer of the `select` is started
with 2147483647000000000 nanoseconds, and that is not the largest duration
9223372036854775807. -/
theorem zero_timeout_timer_is_not_the_largest_duration :
    foreverOptions.Timeout = 0 ∧
    (validateConfig happy.env (newSession foreverOptions) (St.start ())).2.1.options.Timeout =
      2147483647 ∧
    timerDuration 2147483647 = 2147483647000000000 ∧
    { call := Call.select 2147483647000000000, reply := Reply.woke WatchOutcome.completed } ∈
      (Run happy.env foreverOptions (St.start ())).st.trace ∧
    timerDuration
      (validateConfig happy.env (newSession foreverOptions) (St.start ())).2.1.options.Timeout ≠
      MaxInt64 := by
  refine ⟨by rfl, by rfl, by rfl, by decide, by decide⟩

/-- C9, amended: for every request with timeout 0, `validateConfig`
substitutes `math.MaxInt32`, and in a run that reaches `watch` the timer of
the `select` is still started, with that value multiplied by one second:
2147483647000000000 nanoseconds, a product that does not wrap around and is
less than the largest 64-bit duration. -/
theorem zero_timeout_timer_is_MaxInt32_seconds (env : Env σ) (o : Options) (world : σ)
    (s : s1) (w : St σ) (ht : o.Timeout = 0)
    (hreach : reachWatch env o (St.start world) = some (s, w)) :
    (validateConfig env (newSession o) (St.start world)).2.1.options.Timeout = MaxInt32 ∧
    s.options.Timeout = MaxInt32 ∧
    timerDuration s.options.Timeout = MaxInt32 * Second ∧
    timerDuration s.options.Timeout = 2147483647000000000 ∧
    timerDuration s.options.Timeout < MaxInt64 ∧
    ∃ out, { call := Call.select 2147483647000000000, reply := Reply.woke out } ∈
      (Run env o (St.start world)).st.trace := by
  have hs : s.options.Timeout = MaxInt32 := by
    rw [(reachWatch_spec env o _ s w hreach).2.2.2.2, if_pos ht]
  have hd : timerDuration s.options.Timeout = 2147483647000000000 := by
    rw [hs]
    decide
  have hv : (validateConfig env (newSession o) (St.start world)).2.1.options.Timeout =
      MaxInt32 := by
    have h := validateConfig_timeout env (newSession o) (St.start world)
    have ht0 : (newSession o).options.Timeout = 0 := ht
    rw [if_pos ht0] at h
    apply h
    rcases hc : validateConfig env (newSession o) (St.start world) with ⟨_ | e, sa, wa⟩
    · rfl
    · simp [reachWatch, hc] at hreach
  refine ⟨hv, hs, by rw [hd]; decide, hd, by rw [hd]; decide, ?_⟩
  obtain ⟨out, wevs, hw1, _⟩ := watchSelect_trace env s w
  obtain ⟨devs, hd1, _⟩ := deleteStuff_grows env (watchSelect env s w).1 (watchSelect env s w).2
  refine ⟨out, ?_⟩
  rw [(Run_eq_cleanup env o _ s w hreach).2.1, hd1, hw1, hd]
  simp

theorem zero_timeout_timer_is_MaxInt32_seconds_witness :
    foreverOptions.Timeout = 0 ∧
    reachWatch happy.env foreverOptions (St.start ()) =
      some ({ happySession with
              options := { happySession.options with Timeout := 2147483647 } },
            happyEntry) ∧
    ((validateConfig happy.env (newSession foreverOptions) (St.start ())).2.1.options.Timeout =
      MaxInt32 ∧
     ({ happySession with
        options := { happySession.options with Timeout := 2147483647 } } : s1).options.Timeout =
      MaxInt32 ∧
     timerDuration ({ happySession with
        options := { happySession.options with Timeout := 2147483647 } } : s1).options.Timeout =
      MaxInt32 * Second ∧
     timerDuration ({ happySession with
        options := { happySession.options with Timeout := 2147483647 } } : s1).options.Timeout =
      2147483647000000000 ∧
     timerDuration ({ happySession with
        options := { happySession.options with Timeout := 2147483647 } } : s1).options.Timeout <
      MaxInt64 ∧
     ∃ out, { call := Call.select 2147483647000000000, reply := Reply.woke out } ∈
      (Run happy.env foreverOptions (St.start ())).st.trace) :=
  ⟨by rfl, by rfl,
   zero_timeout_timer_is_MaxInt32_seconds happy.env foreverOptions ()
     { happySession with options := { happySession.options with Timeout := 2147483647 } }
     happyEntry (by rfl) (by rfl)⟩

/-! ## What `watch` does not report -/

/-- C2 on the code: on `neverCompletes` the deadline fires first. The log
collection is skipped and stdout and stderr stay empty, the timeout is logged
as an error, the three cleanup steps succeed, and `Run` returns a `nil` error:
`main` prints nothing to the standard output, leaves only the logged line on
the standard error, and exits with code 0. With cleanup disabled the error is
`nil` as well. -/
theorem timeout_is_reported_as_success :
    (Run neverCompletes.env quickOptions (St.start ())).st.calls =
      [Call.createNamespace "fnkube-ns-abcde",
       Call.createJob "fnkube-ns-abcde" "fnkube-job-abcde" "fnkube-container-abcde" "alpine"
         ["echo", "hi"],
       Call.runController "fnkube-ns-abcde",
       Call.select 1000000000,
       Call.sendStop,
       Call.glogError ("E1104 11:29:00.000000       1 fnkube.go:210] " ++
         "Timeout while waiting for the Job to be completed\n"),
       Call.deleteJob "fnkube-ns-abcde" "fnkube-job-abcde",
       Call.listPods "fnkube-ns-abcde" "job-name=fnkube-job-abcde",
       Call.deletePod "fnkube-ns-abcde" "pod-a",
       Call.deletePod "fnkube-ns-abcde" "pod-b",
       Call.deleteNamespace "fnkube-ns-abcde"] ∧
    { call := Call.select 1000000000, reply := Reply.woke WatchOutcome.timedOut } ∈
      (Run neverCompletes.env quickOptions (St.start ())).st.trace ∧
    (Run neverCompletes.env quickOptions (St.start ())).stdout = "" ∧
    (Run neverCompletes.env quickOptions (St.start ())).stderr = "" ∧
    (Run neverCompletes.env quickOptions (St.start ())).err = none ∧
    (Run neverCompletes.env { quickOptions with Cleanup := false } (St.start ())).err = none ∧
    (main neverCompletes.env "" quickFlags (St.start ())).code = 0 ∧
    (main neverCompletes.env "" quickFlags (St.start ())).out = "" ∧
    (main neverCompletes.env "" quickFlags (St.start ())).errOut =
      "E1104 11:29:00.000000       1 fnkube.go:210] " ++
        "Timeout while waiting for the Job to be completed\n" ∧
    (main neverCompletes.env "" { quickFlags with cleanup := false } (St.start ())).code = 0 := by
  refine ⟨by rfl, by decide, by rfl, by rfl, by rfl, by rfl, by rfl, by rfl, by rfl, by rfl⟩

/-- C3 on the code: on `logFails` the job completes and the log of `pod-a`,
the first of the two listed pods, cannot be retrieved. `output` stops there
(the log of `pod-b` is not read) and returns an error naming `pod-a`, but
`watch` drops it: `Run` returns a `nil` error and `main` exits with code 0. -/
theorem log_failure_is_reported_as_success :
    (Run logFails.env debugOptions (St.start ())).st.calls =
      [Call.getNamespace "myproject",
       Call.createJob "myproject" "fnkube-job-abcde" "fnkube-container-abcde" "alpine"
         ["echo", "hi"],
       Call.runController "myproject",
       Call.select 120000000000,
       Call.listPods "myproject" "job-name=fnkube-job-abcde",
       Call.getLogs "myproject" "pod-a"] ∧
    { call := Call.getLogs "myproject" "pod-a", reply := Reply.failed "container not found" } ∈
      (Run logFails.env debugOptions (St.start ())).st.trace ∧
    (∀ s w, reachWatch logFails.env debugOptions (St.start ()) = some (s, w) →
      (output logFails.env s w).1 =
        some "Error getting log for pod pod-a: container not found") ∧
    (Run logFails.env debugOptions (St.start ())).err = none ∧
    (Run logFails.env projectOptions (St.start ())).err = none ∧
    (main logFails.env ""
      { ns := "myproject", image := "alpine", timeout := 120, cleanup := false,
        insecure := false, args := ["echo", "hi"] } (St.start ())).code = 0 := by
  refine ⟨by rfl, by decide, ?_, by rfl, by rfl, by rfl⟩
  intro s w h
  have h1 : reachWatch logFails.env debugOptions (St.start ()) =
      some ({ options := { debugOptions with ConfigFile := "/home/user/.kube/config" },
              jobName := "fnkube-job-abcde", createdNamespace := false, stdout := "",
              stderr := "" },
            { world := (),
              trace := [{ call := Call.getNamespace "myproject", reply := Reply.done },
                { call := Call.createJob "myproject" "fnkube-job-abcde"
                    "fnkube-container-abcde" "alpine" ["echo", "hi"],
                  reply := Reply.done }] }) := by rfl
  rw [h1] at h
  simp only [Option.some.injEq, Prod.mk.injEq] at h
  obtain ⟨hs, hw⟩ := h
  subst hs
  subst hw
  rfl

end Fnkube
